import Mathlib

/-!
# BLE UART central application (`main.c`)

A shallow embedding of the application logic of `TRAINING_ble_app_uart_c/main.c`:
the advertisement parser `adv_report_parse`, the scan controller `scan_start`, the
event handlers `device_manager_event_handler`, `on_ble_evt`, `on_sys_evt` and
`uart_c_evt_handler`, and the dispatcher `ble_evt_dispatch`.

* Machine integers are natural numbers; the width of a C variable shows as an explicit
  reduction (`% 256` for `uint8_t`, `% 65536` for `uint16_t`, `% 2 ^ 32` for `uint32_t`).
* Memory is a function from addresses to bytes; a pointer is an address.
* Calls into the vendor stack and the support libraries are recorded, in program order,
  in the field `calls` of the application state; what such a call returns is read from
  an `Env` value supplied with every handler invocation.
* Debug logging (`APPL_LOG`) and the display macros (`APPL_LCD_WRITE`, `APPL_LCD_CLEAR`,
  both defined to `true` in this build) have no effect and are left out.
-/

namespace BleAppUartC

/-! ## Constants of the vendor headers -/

/-- Constants that `main.c` takes from vendor headers which are not part of the sources.
Their values are parameters of the development. -/
structure Sdk where
  /-- Return code of a successful vendor call (`nrf_error.h`). -/
  NRF_SUCCESS : Nat
  /-- Return code for a missing item (`nrf_error.h`). -/
  NRF_ERROR_NOT_FOUND : Nat
  /-- AD type of an incomplete list of 128-bit service UUIDs (`ble_gap.h`). -/
  BLE_GAP_AD_TYPE_128BIT_SERVICE_UUID_MORE_AVAILABLE : Nat
  /-- AD type of a complete list of 128-bit service UUIDs (`ble_gap.h`). -/
  BLE_GAP_AD_TYPE_128BIT_SERVICE_UUID_COMPLETE : Nat
  /-- Number of links of the device manager (`device_manager_cnfg.h`). -/
  DEVICE_MANAGER_MAX_CONNECTIONS : Nat
deriving DecidableEq, Repr

/-- Line 62: `#define MAX_PEER_COUNT DEVICE_MANAGER_MAX_CONNECTIONS`. -/
def MAX_PEER_COUNT (K : Sdk) : Nat := K.DEVICE_MANAGER_MAX_CONNECTIONS

/-- Line 53. -/
def SCAN_INTERVAL : Nat := 0x00A0

/-- Line 54. -/
def SCAN_WINDOW : Nat := 0x0050

/-- Lines 86-91, `ble_advertising_mode_t`: first enumerator. -/
def BLE_NO_SCAN : Nat := 0

/-- Lines 86-91, `ble_advertising_mode_t`: second enumerator. -/
def BLE_WHITELIST_SCAN : Nat := 1

/-- Lines 86-91, `ble_advertising_mode_t`: third enumerator. -/
def BLE_FAST_SCAN : Nat := 2

/-- Lines 105-106: the 16 bytes of the target service UUID. -/
def nus_service_uuid : List Nat :=
  [0x9E, 0xCA, 0xDC, 0x24, 0x0E, 0xE5, 0xA9, 0xE0,
   0x93, 0xF3, 0xA3, 0xB5, 0x01, 0x00, 0x40, 0x6E]

/-! ## The advertisement parser -/

/-- Byte-addressed memory. A read of a `uint8_t` keeps the low eight bits. -/
abbrev Mem := Nat → Nat

/-- Lines 80-84, `data_t`: a pointer (an address) and a 16-bit length. -/
structure data_t where
  p_data : Nat
  data_len : Nat
deriving DecidableEq, Repr

/-- Lines 332-345, the loop of `adv_report_parse` together with the final `return`.
`fuel` bounds the number of evaluations of the loop condition; `none` means the bound
was reached. The result is the returned code and the content of `*p_typedata`. -/
def adv_report_parse_loop (K : Sdk) (mem : Mem) (type : Nat) (p_advdata : data_t) :
    Nat → Nat → data_t → Option (Nat × data_t)
  | 0, _, _ => none
  | fuel + 1, index, typedata =>
    if index < p_advdata.data_len then
      let field_length := mem (p_advdata.p_data + index) % 256
      let field_type := mem (p_advdata.p_data + (index + 1)) % 256
      if field_type = type % 256 then
        some (K.NRF_SUCCESS,
          { p_data := p_advdata.p_data + (index + 2),
            data_len := (field_length + 65535) % 65536 })
      else
        adv_report_parse_loop K mem type p_advdata fuel
          ((index + (field_length + 1)) % 2 ^ 32) typedata
    else
      some (K.NRF_ERROR_NOT_FOUND, typedata)

/-- Lines 325-346, `adv_report_parse`. The third argument is the content of
`*p_typedata` on entry. The loop is given `data_len + 1` evaluations of its condition,
which is enough for every buffer (`adv_report_parse_loop_isSome`). -/
def adv_report_parse (K : Sdk) (mem : Mem) (type : Nat) (p_advdata : data_t)
    (p_typedata : data_t) : Option (Nat × data_t) :=
  adv_report_parse_loop K mem type p_advdata (p_advdata.data_len + 1) 0 p_typedata

/-- The number of times the body of the loop of `adv_report_parse` (lines 334-343)
runs from `index` on, the round that returns included; the fuel is that of
`adv_report_parse_loop`. -/
def adv_report_parse_iterations (mem : Mem) (type : Nat) (p_advdata : data_t) :
    Nat → Nat → Option Nat
  | 0, _ => none
  | fuel + 1, index =>
    if index < p_advdata.data_len then
      let field_length := mem (p_advdata.p_data + index) % 256
      let field_type := mem (p_advdata.p_data + (index + 1)) % 256
      if field_type = type % 256 then
        some 1
      else
        (adv_report_parse_iterations mem type p_advdata fuel
          ((index + (field_length + 1)) % 2 ^ 32)).map (· + 1)
    else
      some 0

/-! ### Well-formed advertisement buffers -/

/-- One AD structure: its type byte and its value bytes. -/
structure AdField where
  type : Nat
  value : List Nat
deriving DecidableEq, Repr

/-- The length byte of a field: one for the type byte plus the number of value bytes. -/
def AdField.len (f : AdField) : Nat := f.value.length + 1

/-- The bytes of a field: length byte, type byte, value bytes. -/
def AdField.bytes (f : AdField) : List Nat := f.len :: f.type :: f.value

/-- The bytes of a sequence of fields, one after the other. -/
def adBytes : List AdField → List Nat
  | [] => []
  | f :: fs => f.bytes ++ adBytes fs

/-- The length byte and the type byte of a field fit in a byte. -/
def AdField.wf (f : AdField) : Prop := f.len < 256 ∧ f.type < 256

instance (f : AdField) : Decidable f.wf := by
  unfold AdField.wf
  exact inferInstance

/-- The buffer `adv` holds exactly the fields `fs` in memory `mem`: every field is
well formed, the fields tile `data_len` bytes, and memory agrees with them. -/
def HoldsFields (mem : Mem) (adv : data_t) (fs : List AdField) : Prop :=
  (∀ f ∈ fs, f.wf) ∧ adv.data_len = (adBytes fs).length ∧ adv.data_len < 65536 ∧
    ∀ k, k < adv.data_len → mem (adv.p_data + k) = (adBytes fs).getD k 0

instance (mem : Mem) (adv : data_t) (fs : List AdField) : Decidable (HoldsFields mem adv fs) := by
  unfold HoldsFields
  exact inferInstance

/-! ## Application state and vendor calls -/

/-- Lines 40-42: the three status LEDs. -/
inductive Led where
  | SCAN_LED_PIN_NO
  | CONNECTED_LED_PIN_NO
  | ASSERT_LED_PIN_NO
deriving DecidableEq, Repr

/-- The whitelist handed to `dm_whitelist_create` (fields used at lines 700-703). -/
structure ble_gap_whitelist_t where
  pp_addrs : List Nat
  addr_count : Nat
  pp_irks : List Nat
  irk_count : Nat
deriving DecidableEq, Repr

/-- The scan parameters (fields assigned at lines 713-728). `p_whitelist` is `none`
for `NULL` and otherwise the whitelist pointed at. -/
structure ble_gap_scan_params_t where
  active : Nat
  selective : Nat
  p_whitelist : Option ble_gap_whitelist_t
  interval : Nat
  window : Nat
  timeout : Nat
deriving DecidableEq, Repr

/-- A device-manager handle, copied as a whole at line 220. -/
abbrev dm_handle_t := Nat

/-- The sources of a GAP timeout that `on_ble_evt` distinguishes. -/
inductive timeout_src where
  | BLE_GAP_TIMEOUT_SRC_SCAN
  | BLE_GAP_TIMEOUT_SRC_CONN
  | other (src : Nat)
deriving DecidableEq, Repr

/-- A BLE event as `on_ble_evt` reads it; `other` is the `default` case of the switch.
In an advertisement report `data` is the address of the payload and `dlen` its length. -/
inductive ble_evt_t where
  | BLE_GAP_EVT_ADV_REPORT (peer_addr : Nat) (data : Nat) (dlen : Nat)
  | BLE_GAP_EVT_TIMEOUT (src : timeout_src)
  | BLE_GAP_EVT_CONN_PARAM_UPDATE_REQUEST (conn_handle : Nat) (conn_params : Nat)
  | other (evt_id : Nat)
deriving DecidableEq, Repr

/-- A call that leaves `main.c`, with the arguments that `main.c` chooses.
`sd_ble_gap_connect` always gets `&m_connection_param` as its third argument and
`app_timer_start` the timer `m_uart_send_timer_id` with `UART_SEND_INTERVAL`. The
last three are the library handlers to which `ble_evt_dispatch` forwards an event. -/
inductive Call where
  | nrf_gpio_pin_set (pin : Led)
  | nrf_gpio_pin_clear (pin : Led)
  | ble_db_discovery_start (conn_handle : Nat)
  | dm_security_setup_req (handle : dm_handle_t)
  | ble_uart_c_hrm_notif_enable
  | pstorage_access_status_get
  | dm_whitelist_create
  | sd_ble_gap_scan_start (p_scan_params : ble_gap_scan_params_t)
  | sd_ble_gap_scan_stop
  | sd_ble_gap_connect (peer_addr : Nat) (p_scan_params : ble_gap_scan_params_t)
  | sd_ble_gap_conn_param_update (conn_handle : Nat) (conn_params : Nat)
  | write_dummy
  | app_timer_start
  | dm_ble_evt_handler (p_ble_evt : ble_evt_t)
  | ble_db_discovery_on_ble_evt (p_ble_evt : ble_evt_t)
  | ble_uart_c_on_ble_evt (p_ble_evt : ble_evt_t)
deriving DecidableEq, Repr

/-- What the calls made during one handler invocation return. Every handler makes each
of these calls at most once. -/
structure Env where
  /-- Return code and `count` of `pstorage_access_status_get`. -/
  pstorage_access_status_get : Nat × Nat
  /-- Return code of `dm_whitelist_create` and the whitelist it leaves. -/
  dm_whitelist_create : Nat × ble_gap_whitelist_t
  sd_ble_gap_scan_start : Nat
  sd_ble_gap_scan_stop : Nat
  sd_ble_gap_connect : Nat
  /-- Return code of `ble_db_discovery_start` and the module structure it leaves. -/
  ble_db_discovery_start : Nat × List Nat
  dm_security_setup_req : Nat
  ble_uart_c_hrm_notif_enable : Nat
  sd_ble_gap_conn_param_update : Nat
  app_timer_start : Nat
  /-- The indeterminate content of the local `type_data` of `on_ble_evt`. -/
  type_data : data_t
deriving DecidableEq, Repr

/-- Lines 93-102: the module state of `main.c`, the calls made so far, and the error
code with which `app_error_handler` was entered, if it was. -/
structure App where
  /-- The bytes of the discovery module structure. -/
  m_ble_db_discovery : List Nat
  m_scan_param : ble_gap_scan_params_t
  m_dm_device_handle : dm_handle_t
  m_peer_count : Nat
  m_scan_mode : Nat
  m_memory_access_in_progress : Bool
  calls : List Call
  fault : Option Nat
deriving DecidableEq, Repr

/-- The state at the start of `main`: statics are zero, `db_len` is the size of the
discovery module structure. -/
def App.initial (db_len : Nat) : App :=
  { m_ble_db_discovery := List.replicate db_len 0
    m_scan_param :=
      { active := 0, selective := 0, p_whitelist := none, interval := 0, window := 0,
        timeout := 0 }
    m_dm_device_handle := 0
    m_peer_count := 0
    m_scan_mode := 0
    m_memory_access_in_progress := false
    calls := []
    fault := none }

/-- Record a call. -/
def App.call (s : App) (c : Call) : App := { s with calls := s.calls ++ [c] }

/-- Lines 148-165, `app_error_handler`: light the assert LED and spin in `while(1)`.
The handler never returns, which the field `fault` records. -/
def app_error_handler (error_code : Nat) (s : App) : App :=
  { s.call (.nrf_gpio_pin_set .ASSERT_LED_PIN_NO) with fault := some error_code }

/-- Modelled from the spec: the macro `APP_ERROR_CHECK` of `app_error.h`, by which a
vendor API failure is funneled to the fatal-error handler; on success the program
goes on with `k`. -/
def APP_ERROR_CHECK (K : Sdk) (err_code : Nat) (s : App) (k : App → App) : App :=
  if err_code ≠ K.NRF_SUCCESS then app_error_handler err_code s else k s

/-- Go on with `k` after a call that returned; stay where a call did not return. -/
def App.andThen (s : App) (k : App → App) : App :=
  if s.fault.isSome then s else k s

/-! ## The scan controller -/

/-- Lines 680-744, `scan_start`. -/
def scan_start (K : Sdk) (env : Env) (s : App) : App :=
  let s := s.call .pstorage_access_status_get
  APP_ERROR_CHECK K env.pstorage_access_status_get.1 s fun s =>
  if env.pstorage_access_status_get.2 ≠ 0 then
    { s with m_memory_access_in_progress := true }
  else
    let s := s.call .dm_whitelist_create
    let whitelist := env.dm_whitelist_create.2
    APP_ERROR_CHECK K env.dm_whitelist_create.1 s fun s =>
    let s :=
      if (whitelist.addr_count = 0 ∧ whitelist.irk_count = 0) ∨
          s.m_scan_mode ≠ BLE_WHITELIST_SCAN then
        { s with
          m_scan_param :=
            { s.m_scan_param with
              active := 1, selective := 0, interval := SCAN_INTERVAL,
              window := SCAN_WINDOW, p_whitelist := none, timeout := 0x0000 } }
      else
        { s with
          m_scan_param :=
            { s.m_scan_param with
              active := 1, selective := 1, interval := SCAN_INTERVAL,
              window := SCAN_WINDOW, p_whitelist := some whitelist, timeout := 0x001E }
          m_scan_mode := BLE_WHITELIST_SCAN }
    let s := s.call (.sd_ble_gap_scan_start s.m_scan_param)
    APP_ERROR_CHECK K env.sd_ble_gap_scan_start s fun s =>
    s.call (.nrf_gpio_pin_set .SCAN_LED_PIN_NO)

/-! ## The device-manager callback -/

/-- The device-manager event identifiers that `device_manager_event_handler`
distinguishes; `other` is the `default` case. -/
inductive dm_event_id where
  | DM_EVT_CONNECTION
  | DM_EVT_DISCONNECTION
  | DM_EVT_SECURITY_SETUP
  | DM_EVT_SECURITY_SETUP_COMPLETE
  | DM_EVT_LINK_SECURED
  | DM_EVT_DEVICE_CONTEXT_LOADED
  | DM_EVT_DEVICE_CONTEXT_STORED
  | DM_EVT_DEVICE_CONTEXT_DELETED
  | other (id : Nat)
deriving DecidableEq, Repr

/-- A device-manager event: its identifier and the connection handle of its GAP
parameters (line 224). -/
structure dm_event_t where
  event_id : dm_event_id
  conn_handle : Nat
deriving DecidableEq, Repr

/-- Lines 194-310, `device_manager_event_handler`. Where it returns it returns
`NRF_SUCCESS`; the result here is the state it leaves. -/
def device_manager_event_handler (K : Sdk) (env : Env) (p_handle : dm_handle_t)
    (p_event : dm_event_t) (event_result : Nat) (s : App) : App :=
  match p_event.event_id with
  | .DM_EVT_CONNECTION =>
    let s := s.call (.nrf_gpio_pin_set .CONNECTED_LED_PIN_NO)
    let s := { s with m_dm_device_handle := p_handle }
    let s := s.call (.ble_db_discovery_start p_event.conn_handle)
    let s := { s with m_ble_db_discovery := env.ble_db_discovery_start.2 }
    APP_ERROR_CHECK K env.ble_db_discovery_start.1 s fun s =>
    let s := { s with m_peer_count := (s.m_peer_count + 1) % 256 }
    if s.m_peer_count < MAX_PEER_COUNT K then scan_start K env s else s
  | .DM_EVT_DISCONNECTION =>
    let s := { s with m_ble_db_discovery := List.replicate s.m_ble_db_discovery.length 0 }
    let s := s.call (.nrf_gpio_pin_clear .CONNECTED_LED_PIN_NO)
    let s := if s.m_peer_count = MAX_PEER_COUNT K then scan_start K env s else s
    s.andThen fun s =>
    { s with m_peer_count := (s.m_peer_count + 255) % 256 }
  | .DM_EVT_SECURITY_SETUP =>
    let s := s.call (.dm_security_setup_req s.m_dm_device_handle)
    APP_ERROR_CHECK K env.dm_security_setup_req s fun s => s
  | .DM_EVT_SECURITY_SETUP_COMPLETE =>
    let s := s.call .ble_uart_c_hrm_notif_enable
    APP_ERROR_CHECK K env.ble_uart_c_hrm_notif_enable s fun s => s
  | .DM_EVT_LINK_SECURED => s
  | .DM_EVT_DEVICE_CONTEXT_LOADED => APP_ERROR_CHECK K event_result s fun s => s
  | .DM_EVT_DEVICE_CONTEXT_STORED => APP_ERROR_CHECK K event_result s fun s => s
  | .DM_EVT_DEVICE_CONTEXT_DELETED => APP_ERROR_CHECK K event_result s fun s => s
  | .other _ => s

/-! ## The BLE and system event handlers -/

/-- The bytes `mem[p], ..., mem[p + n - 1]`. -/
def readBytes (mem : Mem) (p : Nat) (n : Nat) : List Nat :=
  (List.range n).map fun k => mem (p + k) % 256

/-- Lines 370-379 of `on_ble_evt`: the lookup of the more-available field and, when
that does not succeed, of the complete field. -/
def adv_report_uuid128 (K : Sdk) (mem : Mem) (adv_data : data_t) (type_data : data_t) :
    Option (Nat × data_t) :=
  match adv_report_parse K mem K.BLE_GAP_AD_TYPE_128BIT_SERVICE_UUID_MORE_AVAILABLE
      adv_data type_data with
  | none => none
  | some (err_code, type_data) =>
    if err_code ≠ K.NRF_SUCCESS then
      adv_report_parse K mem K.BLE_GAP_AD_TYPE_128BIT_SERVICE_UUID_COMPLETE
        adv_data type_data
    else
      some (err_code, type_data)

/-- Lines 388-409 of `on_ble_evt`: what is done when the UUID matches. A failure of
the scan stop or of the connect request is only logged. -/
def on_uuid_matched (s : App) (peer_addr : Nat) : App :=
  let s := s.call .sd_ble_gap_scan_stop
  let s := s.call (.nrf_gpio_pin_clear .SCAN_LED_PIN_NO)
  let s := { s with m_scan_param := { s.m_scan_param with selective := 0 } }
  s.call (.sd_ble_gap_connect peer_addr s.m_scan_param)

/-- Lines 354-441, `on_ble_evt`. A parser that does not return leaves the handler
spinning, recorded as `fault` without an error code of the vendor stack. -/
def on_ble_evt (K : Sdk) (env : Env) (mem : Mem) (p_ble_evt : ble_evt_t) (s : App) : App :=
  match p_ble_evt with
  | .BLE_GAP_EVT_ADV_REPORT peer_addr data dlen =>
    let adv_data : data_t := { p_data := data, data_len := dlen % 65536 }
    match adv_report_uuid128 K mem adv_data env.type_data with
    | none => { s with fault := some 0 }
    | some (err_code, type_data) =>
      if err_code = K.NRF_SUCCESS then
        if readBytes mem type_data.p_data 16 = nus_service_uuid then
          on_uuid_matched s peer_addr
        else s
      else s
  | .BLE_GAP_EVT_TIMEOUT src =>
    match src with
    | .BLE_GAP_TIMEOUT_SRC_SCAN =>
      if s.m_scan_mode = BLE_WHITELIST_SCAN then
        scan_start K env { s with m_scan_mode := BLE_FAST_SCAN }
      else s
    | .BLE_GAP_TIMEOUT_SRC_CONN => s
    | .other _ => s
  | .BLE_GAP_EVT_CONN_PARAM_UPDATE_REQUEST conn_handle conn_params =>
    let s := s.call (.sd_ble_gap_conn_param_update conn_handle conn_params)
    APP_ERROR_CHECK K env.sd_ble_gap_conn_param_update s fun s => s
  | .other _ => s

/-- The system events that `on_sys_evt` distinguishes. -/
inductive sys_evt_t where
  | NRF_EVT_FLASH_OPERATION_SUCCESS
  | NRF_EVT_FLASH_OPERATION_ERROR
  | other (evt : Nat)
deriving DecidableEq, Repr

/-- Lines 447-463, `on_sys_evt`. -/
def on_sys_evt (K : Sdk) (env : Env) (sys_evt : sys_evt_t) (s : App) : App :=
  match sys_evt with
  | .NRF_EVT_FLASH_OPERATION_SUCCESS | .NRF_EVT_FLASH_OPERATION_ERROR =>
    if s.m_memory_access_in_progress then
      scan_start K env { s with m_memory_access_in_progress := false }
    else s
  | .other _ => s

/-! ## The event dispatcher -/

/-- The event types of the UART client that `uart_c_evt_handler` distinguishes; `other`
is the `default` case. -/
inductive uart_c_evt_type where
  | BLE_uart_C_EVT_DISCOVERY_COMPLETE
  | BLE_UART_C_EVT_HRM_NOTIFICATION
  | other (evt_type : Nat)
deriving DecidableEq, Repr

/-- Lines 609-645, `uart_c_evt_handler`. On a notification it only terminates the
received bytes, which lie in the event, and logs them. -/
def uart_c_evt_handler (K : Sdk) (env : Env) (evt_type : uart_c_evt_type) (s : App) : App :=
  match evt_type with
  | .BLE_uart_C_EVT_DISCOVERY_COMPLETE =>
    let s := s.call (.dm_security_setup_req s.m_dm_device_handle)
    APP_ERROR_CHECK K env.dm_security_setup_req s fun s =>
    let s := s.call .ble_uart_c_hrm_notif_enable
    APP_ERROR_CHECK K env.ble_uart_c_hrm_notif_enable s fun s =>
    let s := s.call .write_dummy
    let s := s.call .app_timer_start
    APP_ERROR_CHECK K env.app_timer_start s fun s => s
  | .BLE_UART_C_EVT_HRM_NOTIFICATION => s
  | .other _ => s

/-- A call that a library handler makes back into `main.c` while it handles a BLE
event: of the callback registered with the device manager (line 542) or of the one
registered with the UART client (line 658), with what the vendor calls return during
it. -/
inductive Callback where
  | device_manager_event_handler (env : Env) (p_handle : dm_handle_t)
      (p_event : dm_event_t) (event_result : Nat)
  | uart_c_evt_handler (env : Env) (evt_type : uart_c_evt_type)

/-- What the three library handlers do to the application during one dispatch: the
callbacks each of them makes, and the bytes that `ble_db_discovery_on_ble_evt` leaves
in the structure `m_ble_db_discovery` it is handed. -/
structure Library where
  dm_ble_evt_handler : List Callback
  m_ble_db_discovery : List Nat
  ble_db_discovery_on_ble_evt : List Callback
  ble_uart_c_on_ble_evt : List Callback

/-- Run the callbacks of one library handler, as long as they return. -/
def callbacks (K : Sdk) (cbs : List Callback) (s : App) : App :=
  cbs.foldl
    (fun s cb =>
      s.andThen fun s =>
        match cb with
        | .device_manager_event_handler env p_handle p_event event_result =>
          device_manager_event_handler K env p_handle p_event event_result s
        | .uart_c_evt_handler env evt_type => uart_c_evt_handler K env evt_type s)
    s

/-- Lines 473-480, `ble_evt_dispatch`. -/
def ble_evt_dispatch (K : Sdk) (env : Env) (mem : Mem) (lib : Library)
    (p_ble_evt : ble_evt_t) (s : App) : App :=
  let s := s.call (.dm_ble_evt_handler p_ble_evt)
  let s := callbacks K lib.dm_ble_evt_handler s
  s.andThen fun s =>
  let s := s.call (.ble_db_discovery_on_ble_evt p_ble_evt)
  let s := { s with m_ble_db_discovery := lib.m_ble_db_discovery }
  let s := callbacks K lib.ble_db_discovery_on_ble_evt s
  s.andThen fun s =>
  let s := s.call (.ble_uart_c_on_ble_evt p_ble_evt)
  let s := callbacks K lib.ble_uart_c_on_ble_evt s
  s.andThen fun s =>
  on_ble_evt K env mem p_ble_evt s

/-- The calls by which `ble_evt_dispatch` forwards an event to a library handler. -/
def forwards (cs : List Call) : List Call :=
  cs.filter fun c => match c with
    | .dm_ble_evt_handler _ => true
    | .ble_db_discovery_on_ble_evt _ => true
    | .ble_uart_c_on_ble_evt _ => true
    | _ => false

/-- A library in which no handler calls back and the discovery structure is `db`. -/
def Library.silent (db : List Nat) : Library :=
  { dm_ble_evt_handler := [], m_ble_db_discovery := db,
    ble_db_discovery_on_ble_evt := [], ble_uart_c_on_ble_evt := [] }

/-! ## Runs of the application -/

/-- An event that reaches one of the handlers of `main.c`. -/
inductive Event where
  | dm (p_handle : dm_handle_t) (p_event : dm_event_t) (event_result : Nat)
  | ble (p_ble_evt : ble_evt_t)
  | sys (sys_evt : sys_evt_t)
deriving DecidableEq, Repr

/-- An event together with what the vendor calls return while it is handled and with
the memory that holds its payload. -/
structure Input where
  env : Env
  mem : Mem
  event : Event

/-- Handle one event. Once `app_error_handler` is entered nothing is handled any more. -/
def step (K : Sdk) (s : App) (i : Input) : App :=
  if s.fault.isSome then s
  else
    match i.event with
    | .dm p_handle p_event event_result =>
      device_manager_event_handler K i.env p_handle p_event event_result s
    | .ble p_ble_evt => on_ble_evt K i.env i.mem p_ble_evt s
    | .sys sys_evt => on_sys_evt K i.env sys_evt s

/-- Handle a sequence of events, one after the other. -/
def run (K : Sdk) (s : App) (is : List Input) : App := is.foldl (step K) s

/-- Lines 768-790, `main` up to its idle loop: the call of `scan_start` at line 784 on
the initial state. The module initialisations before it touch none of the fields of
`App`. -/
def main (K : Sdk) (env : Env) (db_len : Nat) : App :=
  scan_start K env (App.initial db_len)

/-- The states the application can be in between two events. -/
def Reachable (K : Sdk) (db_len : Nat) (s : App) : Prop :=
  ∃ (env : Env) (is : List Input), s = run K (main K env db_len) is

/-- The number of scan start requests among the calls. -/
def scanStarts (cs : List Call) : Nat :=
  (cs.filter fun c => match c with
    | .sd_ble_gap_scan_start _ => true
    | _ => false).length

/-- The number of invocations of `scan_start` among the calls: each invocation begins
with the one call of `pstorage_access_status_get` in `main.c` (line 690). -/
def scanStartCalls (cs : List Call) : Nat :=
  (cs.filter fun c => match c with
    | .pstorage_access_status_get => true
    | _ => false).length

/-- A choice of header values for concrete runs: the codes of `nrf_error.h`, the AD
types of `ble_gap.h`, and a device manager with two links. -/
def Sdk.sample : Sdk :=
  { NRF_SUCCESS := 0
    NRF_ERROR_NOT_FOUND := 5
    BLE_GAP_AD_TYPE_128BIT_SERVICE_UUID_MORE_AVAILABLE := 0x06
    BLE_GAP_AD_TYPE_128BIT_SERVICE_UUID_COMPLETE := 0x07
    DEVICE_MANAGER_MAX_CONNECTIONS := 2 }

/-- An environment in which every vendor call succeeds, no flash access is pending and
no peer is bonded. -/
def Env.quiet : Env :=
  { pstorage_access_status_get := (0, 0)
    dm_whitelist_create := (0, { pp_addrs := [], addr_count := 0, pp_irks := [], irk_count := 0 })
    sd_ble_gap_scan_start := 0
    sd_ble_gap_scan_stop := 0
    sd_ble_gap_connect := 0
    ble_db_discovery_start := (0, [1, 0, 0, 0])
    dm_security_setup_req := 0
    ble_uart_c_hrm_notif_enable := 0
    sd_ble_gap_conn_param_update := 0
    app_timer_start := 0
    type_data := { p_data := 0, data_len := 0 } }

/-- Memory that holds the bytes `bs` from address `base` on and zero elsewhere. -/
def memOf (base : Nat) (bs : List Nat) : Mem :=
  fun a => if base ≤ a then bs.getD (a - base) 0 else 0

/-- An environment like `Env.quiet` in which one peer address is bonded. -/
def Env.bonded : Env :=
  { Env.quiet with
    dm_whitelist_create :=
      (0, { pp_addrs := [0xC0FFEE], addr_count := 1, pp_irks := [], irk_count := 0 }) }

/-- An environment like `Env.quiet` in which one flash access is pending. -/
def Env.busy : Env :=
  { Env.quiet with pstorage_access_status_get := (0, 1) }

/-- The connection and disconnection events of `is` respect the links of the device
manager: with `n` peers connected at the start, no connection arrives while `max`
peers are connected and no disconnection while none is. -/
def linksRespected (max : Nat) : Nat → List Input → Bool
  | _, [] => true
  | n, i :: is =>
    match i.event with
    | .dm _ { event_id := .DM_EVT_CONNECTION, .. } _ =>
      decide (n < max) && linksRespected max (n + 1) is
    | .dm _ { event_id := .DM_EVT_DISCONNECTION, .. } _ =>
      decide (0 < n) && linksRespected max (n - 1) is
    | _ => linksRespected max n is

/-- A scan timeout event with what the vendor calls return while it is handled. -/
def Input.scanTimeout (env : Env) : Input :=
  { env := env, mem := fun _ => 0,
    event := .ble (.BLE_GAP_EVT_TIMEOUT .BLE_GAP_TIMEOUT_SRC_SCAN) }

/-- A device-manager event with what the vendor calls return while it is handled. -/
def Input.dmEvent (env : Env) (p_handle : dm_handle_t) (id : dm_event_id)
    (conn_handle : Nat) : Input :=
  { env := env, mem := fun _ => 0,
    event := .dm p_handle { event_id := id, conn_handle := conn_handle } 0 }

/-- A system event with what the vendor calls return while it is handled. -/
def Input.sysEvent (env : Env) (sys_evt : sys_evt_t) : Input :=
  { env := env, mem := fun _ => 0, event := .sys sys_evt }

/-- A scan start request that is not selective: `selective = 0`, no whitelist and
timeout 0. -/
def ble_gap_scan_params_t.general (p : ble_gap_scan_params_t) : Prop :=
  p.selective = 0 ∧ p.p_whitelist = none ∧ p.timeout = 0

/-- The application is not in whitelist mode and every scan start request it has made
is not selective. -/
def GeneralScanOnly (s : App) : Prop :=
  s.m_scan_mode ≠ BLE_WHITELIST_SCAN ∧
    ∀ p, Call.sd_ble_gap_scan_start p ∈ s.calls → p.general

/-! ## Lemmas on the parser -/

theorem getD_append_add (l₁ l₂ : List Nat) (k : Nat) :
    (l₁ ++ l₂).getD (l₁.length + k) 0 = l₂.getD k 0 := by
  simp [List.getD_eq_getElem?_getD, List.getElem?_append_right]

theorem adBytes_append (fs gs : List AdField) :
    adBytes (fs ++ gs) = adBytes fs ++ adBytes gs := by
  induction fs with
  | nil => rfl
  | cons f fs ih => simp [adBytes, ih]

theorem adBytes_cons (f : AdField) (fs : List AdField) :
    adBytes (f :: fs) = f.bytes ++ adBytes fs := rfl

theorem AdField.bytes_length (f : AdField) : f.bytes.length = f.len + 1 := by
  simp [AdField.bytes, AdField.len]

theorem length_le_adBytes (fs : List AdField) : fs.length ≤ (adBytes fs).length := by
  induction fs with
  | nil => simp
  | cons f fs ih =>
    simp only [adBytes, List.length_append, List.length_cons, AdField.bytes_length]
    omega

/-- One round of the loop over a well-formed field of another type: the field is
skipped and the loop goes on right behind it. -/
theorem adv_report_parse_loop_skip (K : Sdk) (mem : Mem) (t : Nat) (adv : data_t)
    (td : data_t) (g : AdField) (rest : List Nat) (fuel index : Nat)
    (hg : g.wf) (hgt : g.type ≠ t % 256)
    (hlen : index + (g.bytes ++ rest).length ≤ adv.data_len) (hlt : adv.data_len < 65536)
    (hmem : ∀ k, k < (g.bytes ++ rest).length →
      mem (adv.p_data + (index + k)) = (g.bytes ++ rest).getD k 0) :
    adv_report_parse_loop K mem t adv (fuel + 1) index td =
      adv_report_parse_loop K mem t adv fuel (index + g.bytes.length) td := by
  have hb : (g.bytes ++ rest).length = g.len + 1 + rest.length := by
    simp [AdField.bytes_length]
  have hpos : 1 ≤ g.len := by simp [AdField.len]
  rw [hb] at hlen
  have h0 := hmem 0 (by rw [hb]; omega)
  have h1 := hmem 1 (by rw [hb]; omega)
  simp only [AdField.bytes, List.cons_append, List.getD_cons_zero, List.getD_cons_succ,
    Nat.add_zero] at h0 h1
  obtain ⟨hl, ht⟩ := hg
  have hi : index < adv.data_len := by omega
  rw [adv_report_parse_loop, if_pos hi]
  simp only [h0, h1, Nat.mod_eq_of_lt hl, Nat.mod_eq_of_lt ht]
  rw [if_neg hgt, AdField.bytes_length]
  congr 1
  apply Nat.mod_eq_of_lt
  omega

/-- The loop, started at a field boundary of a well-formed buffer in front of fields
`pre` of other types and a field `f`, returns the value of `f`. -/
theorem adv_report_parse_loop_found (K : Sdk) (mem : Mem) (adv : data_t) (td : data_t)
    (f : AdField) (post : List AdField) (hf : f.wf) (hlt : adv.data_len < 65536) :
    ∀ (pre : List AdField) (fuel index : Nat), pre.length < fuel →
      (∀ g ∈ pre, g.wf ∧ g.type ≠ f.type) →
      index + (adBytes (pre ++ f :: post)).length ≤ adv.data_len →
      (∀ k, k < (adBytes (pre ++ f :: post)).length →
        mem (adv.p_data + (index + k)) = (adBytes (pre ++ f :: post)).getD k 0) →
      adv_report_parse_loop K mem f.type adv fuel index td =
        some (K.NRF_SUCCESS,
          { p_data := adv.p_data + (index + (adBytes pre).length + 2),
            data_len := f.len - 1 }) := by
  intro pre
  induction pre with
  | nil =>
    intro fuel index hfuel _ hlen hmem
    obtain ⟨n, rfl⟩ : ∃ n, fuel = n + 1 := ⟨fuel - 1, by simp at hfuel; omega⟩
    rw [List.nil_append, adBytes_cons] at hlen hmem
    have hb : (f.bytes ++ adBytes post).length = f.len + 1 + (adBytes post).length := by
      simp [AdField.bytes_length]
    have hpos : 1 ≤ f.len := by simp [AdField.len]
    rw [hb] at hlen
    have h0 := hmem 0 (by rw [hb]; omega)
    have h1 := hmem 1 (by rw [hb]; omega)
    simp only [AdField.bytes, List.cons_append, List.getD_cons_zero, List.getD_cons_succ,
      Nat.add_zero] at h0 h1
    obtain ⟨hl, ht⟩ := hf
    have hi : index < adv.data_len := by omega
    have hdl : (f.len + 65535) % 65536 = f.len - 1 := by omega
    rw [adv_report_parse_loop, if_pos hi]
    simp only [h0, h1, Nat.mod_eq_of_lt hl, Nat.mod_eq_of_lt ht, if_true, adBytes,
      List.length_nil, Nat.add_zero, hdl]
  | cons g pre ih =>
    intro fuel index hfuel hpre hlen hmem
    obtain ⟨n, rfl⟩ : ∃ n, fuel = n + 1 := ⟨fuel - 1, by simp at hfuel; omega⟩
    have hg := hpre g (List.mem_cons_self _ _)
    rw [List.cons_append, adBytes_cons] at hlen hmem
    have hft : f.type % 256 = f.type := Nat.mod_eq_of_lt hf.2
    rw [adv_report_parse_loop_skip K mem f.type adv td g _ n index hg.1
      (by rw [hft]; exact hg.2) hlen hlt hmem]
    rw [ih n (index + g.bytes.length) (by simp at hfuel; omega)
      (fun h hh => hpre h (List.mem_cons_of_mem _ hh))
      (by simp only [List.length_append] at hlen ⊢; omega)
      (by
        intro k hk
        have := hmem (g.bytes.length + k) (by simp only [List.length_append]; omega)
        rw [getD_append_add] at this
        rw [← this]
        congr 2
        omega)]
    rw [adBytes_cons, List.length_append]
    congr 3
    omega

/-- The loop, started at a field boundary of a well-formed buffer in front of fields
that all have another type, runs to the end of the buffer and leaves `*p_typedata`. -/
theorem adv_report_parse_loop_absent (K : Sdk) (mem : Mem) (t : Nat) (adv : data_t)
    (td : data_t) (hlt : adv.data_len < 65536) :
    ∀ (fs : List AdField) (fuel index : Nat), fs.length < fuel →
      (∀ g ∈ fs, g.wf ∧ g.type ≠ t % 256) →
      index + (adBytes fs).length = adv.data_len →
      (∀ k, k < (adBytes fs).length →
        mem (adv.p_data + (index + k)) = (adBytes fs).getD k 0) →
      adv_report_parse_loop K mem t adv fuel index td = some (K.NRF_ERROR_NOT_FOUND, td) := by
  intro fs
  induction fs with
  | nil =>
    intro fuel index hfuel _ hlen _
    obtain ⟨n, rfl⟩ : ∃ n, fuel = n + 1 := ⟨fuel - 1, by simp at hfuel; omega⟩
    simp only [adBytes, List.length_nil, Nat.add_zero] at hlen
    rw [adv_report_parse_loop, if_neg (by omega)]
  | cons g fs ih =>
    intro fuel index hfuel hfs hlen hmem
    obtain ⟨n, rfl⟩ : ∃ n, fuel = n + 1 := ⟨fuel - 1, by simp at hfuel; omega⟩
    have hg := hfs g (List.mem_cons_self _ _)
    rw [adBytes_cons] at hlen hmem
    rw [adv_report_parse_loop_skip K mem t adv td g _ n index hg.1 hg.2 (by omega) hlt hmem]
    exact ih n (index + g.bytes.length) (by simp at hfuel; omega)
      (fun h hh => hfs h (List.mem_cons_of_mem _ hh))
      (by simp only [List.length_append] at hlen ⊢; omega)
      (by
        intro k hk
        have := hmem (g.bytes.length + k) (by simp only [List.length_append]; omega)
        rw [getD_append_add] at this
        rw [← this]
        congr 2
        omega)

/-- The loop returns whenever its fuel exceeds the distance to the end of the buffer. -/
theorem adv_report_parse_loop_isSome (K : Sdk) (mem : Mem) (t : Nat) (adv : data_t)
    (td : data_t) (hlt : adv.data_len < 65536) :
    ∀ (fuel index : Nat), adv.data_len - index < fuel →
      (adv_report_parse_loop K mem t adv fuel index td).isSome = true := by
  intro fuel
  induction fuel with
  | zero => intro index h; omega
  | succ n ih =>
    intro index h
    rw [adv_report_parse_loop]
    by_cases hi : index < adv.data_len
    · rw [if_pos hi]
      simp only
      split
      · rfl
      · apply ih
        have hb : mem (adv.p_data + index) % 256 < 256 := Nat.mod_lt _ (by norm_num)
        rw [Nat.mod_eq_of_lt (by omega)]
        omega
    · rw [if_neg hi]
      rfl

/-- On a well-formed buffer with a field of type `t`, `adv_report_parse` returns the
value of the first such field. -/
theorem adv_report_parse_found (K : Sdk) (mem : Mem) (adv : data_t) (td : data_t)
    (pre : List AdField) (f : AdField) (post : List AdField)
    (h : HoldsFields mem adv (pre ++ f :: post)) (hpre : ∀ g ∈ pre, g.type ≠ f.type) :
    adv_report_parse K mem f.type adv td =
      some (K.NRF_SUCCESS,
        { p_data := adv.p_data + ((adBytes pre).length + 2), data_len := f.len - 1 }) := by
  obtain ⟨hwf, hlen, hlt, hmem⟩ := h
  have hfu : pre.length < adv.data_len + 1 := by
    have := length_le_adBytes (pre ++ f :: post)
    simp only [List.length_append, List.length_cons] at this
    omega
  rw [adv_report_parse, adv_report_parse_loop_found K mem adv td f post
    (hwf f (by simp)) hlt pre _ 0 hfu
    (fun g hg => ⟨hwf g (by simp [hg]), hpre g hg⟩) (by omega)
    (by intro k hk; rw [Nat.zero_add]; exact hmem k (by omega))]
  simp

/-- On a well-formed buffer without a field of type `t`, `adv_report_parse` returns
not-found and leaves `*p_typedata`. -/
theorem adv_report_parse_absent (K : Sdk) (mem : Mem) (t : Nat) (adv : data_t)
    (td : data_t) (fs : List AdField) (h : HoldsFields mem adv fs) (ht : t < 256)
    (hfs : ∀ g ∈ fs, g.type ≠ t) :
    adv_report_parse K mem t adv td = some (K.NRF_ERROR_NOT_FOUND, td) := by
  obtain ⟨hwf, hlen, hlt, hmem⟩ := h
  have hfu : fs.length < adv.data_len + 1 := by
    have := length_le_adBytes fs
    omega
  exact adv_report_parse_loop_absent K mem t adv td hlt fs _ 0 hfu
    (fun g hg => ⟨hwf g hg, by rw [Nat.mod_eq_of_lt ht]; exact hfs g hg⟩) (by omega)
    (by intro k hk; rw [Nat.zero_add]; exact hmem k (by omega))

/-- A list with a field of type `t` splits at the first such field. -/
theorem exists_first_of_type (t : Nat) :
    ∀ fs : List AdField, (∃ f ∈ fs, f.type = t) →
      ∃ pre f post, fs = pre ++ f :: post ∧ f.type = t ∧ ∀ g ∈ pre, g.type ≠ t := by
  intro fs
  induction fs with
  | nil => rintro ⟨f, hf, -⟩; cases hf
  | cons a fs ih =>
    intro h
    by_cases ha : a.type = t
    · exact ⟨[], a, fs, rfl, ha, by simp⟩
    · obtain ⟨f, hf, hft⟩ := h
      have hmem : f ∈ fs := by
        rcases List.mem_cons.mp hf with rfl | h'
        · exact absurd hft ha
        · exact h'
      obtain ⟨pre, f', post, rfl, hf', hpre⟩ := ih ⟨f, hmem, hft⟩
      refine ⟨a :: pre, f', post, rfl, hf', ?_⟩
      intro g hg
      rcases List.mem_cons.mp hg with rfl | h'
      · exact ha
      · exact hpre g h'

/-! ## Properties of the advertisement filter -/

/-- C1: on a well-formed advertisement buffer (fields of a length byte `L >= 1`, a type
byte and `L - 1` value bytes that tile exactly `data_len` bytes) that carries a field of
type `t`, `adv_report_parse` returns `NRF_SUCCESS` with `p_typedata` pointing at offset
`i + 2` and with `data_len = L - 1`, where `i` is the start offset and `L` the length
byte of the first field of type `t`. -/
theorem adv_report_parse_first_field (K : Sdk) (mem : Mem) (adv : data_t) (td : data_t)
    (fs : List AdField) (t : Nat) (h : HoldsFields mem adv fs)
    (ht : ∃ f ∈ fs, f.type = t) :
    ∃ pre f post, fs = pre ++ f :: post ∧ f.type = t ∧ (∀ g ∈ pre, g.type ≠ t) ∧
      adv_report_parse K mem t adv td =
        some (K.NRF_SUCCESS,
          { p_data := adv.p_data + ((adBytes pre).length + 2), data_len := f.len - 1 }) := by
  obtain ⟨pre, f, post, rfl, hft, hpre⟩ := exists_first_of_type t fs ht
  refine ⟨pre, f, post, rfl, hft, hpre, ?_⟩
  subst hft
  exact adv_report_parse_found K mem adv td pre f post h hpre

/-- C1, at a buffer of three fields of types 1, 6 and 6 at address `0x2000`: the lookup
of type 6 finds a field, and it is the first one of that type. -/
theorem adv_report_parse_first_field_witness :
    ∃ pre f post,
      [AdField.mk 1 [5], AdField.mk 6 [7, 8], AdField.mk 6 [9]] = pre ++ f :: post ∧
      f.type = 6 ∧ (∀ g ∈ pre, g.type ≠ 6) ∧
      adv_report_parse Sdk.sample
          (memOf 0x2000 (adBytes [AdField.mk 1 [5], AdField.mk 6 [7, 8], AdField.mk 6 [9]]))
          6 { p_data := 0x2000, data_len := 10 } { p_data := 0, data_len := 0 } =
        some (Sdk.sample.NRF_SUCCESS,
          { p_data := 0x2000 + ((adBytes pre).length + 2), data_len := f.len - 1 }) :=
  adv_report_parse_first_field Sdk.sample
    (memOf 0x2000 (adBytes [AdField.mk 1 [5], AdField.mk 6 [7, 8], AdField.mk 6 [9]]))
    { p_data := 0x2000, data_len := 10 } { p_data := 0, data_len := 0 }
    [AdField.mk 1 [5], AdField.mk 6 [7, 8], AdField.mk 6 [9]] 6 (by decide) (by decide)

/-- The lookup of `on_ble_evt` on a well-formed buffer with neither kind of field. -/
theorem adv_report_uuid128_absent (K : Sdk) (mem : Mem) (adv : data_t) (td : data_t)
    (fs : List AdField) (h : HoldsFields mem adv fs)
    (hK : K.NRF_ERROR_NOT_FOUND ≠ K.NRF_SUCCESS)
    (hm : K.BLE_GAP_AD_TYPE_128BIT_SERVICE_UUID_MORE_AVAILABLE < 256)
    (hc : K.BLE_GAP_AD_TYPE_128BIT_SERVICE_UUID_COMPLETE < 256)
    (hfs : ∀ g ∈ fs, g.type ≠ K.BLE_GAP_AD_TYPE_128BIT_SERVICE_UUID_MORE_AVAILABLE ∧
      g.type ≠ K.BLE_GAP_AD_TYPE_128BIT_SERVICE_UUID_COMPLETE) :
    adv_report_uuid128 K mem adv td = some (K.NRF_ERROR_NOT_FOUND, td) := by
  rw [adv_report_uuid128, adv_report_parse_absent K mem _ adv td fs h hm
    (fun g hg => (hfs g hg).1)]
  simp only [ne_eq, hK, not_false_eq_true, if_true]
  exact adv_report_parse_absent K mem _ adv td fs h hc (fun g hg => (hfs g hg).2)

/-- C2: on a well-formed advertisement buffer (the empty one included) without a field
of type `t`, `adv_report_parse` returns `NRF_ERROR_NOT_FOUND` and leaves `*p_typedata`
as it was; so `on_ble_evt`, on a report with neither a more-available nor a complete
128-bit UUID field, issues no scan stop and no connect request: it makes no call and
leaves the state as it was. -/
theorem adv_report_parse_not_found (K : Sdk) (mem : Mem) (data dlen : Nat)
    (fs : List AdField) (h : HoldsFields mem { p_data := data, data_len := dlen } fs) :
    (∀ t td, t < 256 → (∀ g ∈ fs, g.type ≠ t) →
      adv_report_parse K mem t { p_data := data, data_len := dlen } td =
        some (K.NRF_ERROR_NOT_FOUND, td)) ∧
    (K.NRF_ERROR_NOT_FOUND ≠ K.NRF_SUCCESS →
      K.BLE_GAP_AD_TYPE_128BIT_SERVICE_UUID_MORE_AVAILABLE < 256 →
      K.BLE_GAP_AD_TYPE_128BIT_SERVICE_UUID_COMPLETE < 256 →
      (∀ g ∈ fs, g.type ≠ K.BLE_GAP_AD_TYPE_128BIT_SERVICE_UUID_MORE_AVAILABLE ∧
        g.type ≠ K.BLE_GAP_AD_TYPE_128BIT_SERVICE_UUID_COMPLETE) →
      ∀ env peer_addr s,
        on_ble_evt K env mem (.BLE_GAP_EVT_ADV_REPORT peer_addr data dlen) s = s) := by
  refine ⟨fun t td ht hfs => adv_report_parse_absent K mem t _ td fs h ht hfs, ?_⟩
  intro hK hm hc hfs env peer_addr s
  have hd : dlen % 65536 = dlen := Nat.mod_eq_of_lt h.2.2.1
  simp only [on_ble_evt, hd]
  rw [adv_report_uuid128_absent K mem _ env.type_data fs h hK hm hc hfs]
  simp only [hK, if_false]

/-- C2, at a buffer of two fields of types 1 and 9 at address `0x2000` and at the empty
buffer: the lookup of type 6 finds nothing, and the report changes nothing. -/
theorem adv_report_parse_not_found_witness :
    (adv_report_parse Sdk.sample (memOf 0x2000 (adBytes [AdField.mk 1 [5], AdField.mk 9 [7, 8]]))
        6 { p_data := 0x2000, data_len := 7 } { p_data := 11, data_len := 12 } =
      some (Sdk.sample.NRF_ERROR_NOT_FOUND, { p_data := 11, data_len := 12 })) ∧
    (on_ble_evt Sdk.sample Env.quiet (memOf 0x2000 (adBytes [AdField.mk 1 [5], AdField.mk 9 [7, 8]]))
        (.BLE_GAP_EVT_ADV_REPORT 77 0x2000 7) (App.initial 4) = App.initial 4) ∧
    (adv_report_parse Sdk.sample (memOf 0x2000 [])
        6 { p_data := 0x2000, data_len := 0 } { p_data := 11, data_len := 12 } =
      some (Sdk.sample.NRF_ERROR_NOT_FOUND, { p_data := 11, data_len := 12 })) :=
  ⟨(adv_report_parse_not_found Sdk.sample
      (memOf 0x2000 (adBytes [AdField.mk 1 [5], AdField.mk 9 [7, 8]])) 0x2000 7
      [AdField.mk 1 [5], AdField.mk 9 [7, 8]] (by decide)).1 6 _ (by decide) (by decide),
   (adv_report_parse_not_found Sdk.sample
      (memOf 0x2000 (adBytes [AdField.mk 1 [5], AdField.mk 9 [7, 8]])) 0x2000 7
      [AdField.mk 1 [5], AdField.mk 9 [7, 8]] (by decide)).2 (by decide) (by decide)
      (by decide) (by decide) Env.quiet 77 (App.initial 4),
   (adv_report_parse_not_found Sdk.sample (memOf 0x2000 []) 0x2000 0 [] (by decide)).1 6 _
      (by decide) (by decide)⟩

/-- C9: on an advertisement report with a well-formed buffer, `on_ble_evt` looks up the
more-available 128-bit UUID field first: when such a field is present, the bytes
compared with the target are those of the first more-available field, wherever complete
fields lie in the buffer (the fields in front of it are only required not to be
more-available ones); the complete field is looked up, and its first occurrence
compared, only when the buffer has no more-available field. -/
theorem on_ble_evt_lookup_order (K : Sdk) (mem : Mem) (data dlen : Nat)
    (fs : List AdField) (h : HoldsFields mem { p_data := data, data_len := dlen } fs)
    (hK : K.NRF_ERROR_NOT_FOUND ≠ K.NRF_SUCCESS)
    (hm : K.BLE_GAP_AD_TYPE_128BIT_SERVICE_UUID_MORE_AVAILABLE < 256)
    (env : Env) (peer_addr : Nat) (s : App) :
    (∀ pre f post, fs = pre ++ f :: post →
      f.type = K.BLE_GAP_AD_TYPE_128BIT_SERVICE_UUID_MORE_AVAILABLE →
      (∀ g ∈ pre, g.type ≠ K.BLE_GAP_AD_TYPE_128BIT_SERVICE_UUID_MORE_AVAILABLE) →
      adv_report_uuid128 K mem { p_data := data, data_len := dlen } env.type_data =
        some (K.NRF_SUCCESS,
          { p_data := data + ((adBytes pre).length + 2), data_len := f.len - 1 }) ∧
      on_ble_evt K env mem (.BLE_GAP_EVT_ADV_REPORT peer_addr data dlen) s =
        if readBytes mem (data + ((adBytes pre).length + 2)) 16 = nus_service_uuid then
          on_uuid_matched s peer_addr
        else s) ∧
    (∀ pre f post, fs = pre ++ f :: post →
      (∀ g ∈ fs, g.type ≠ K.BLE_GAP_AD_TYPE_128BIT_SERVICE_UUID_MORE_AVAILABLE) →
      f.type = K.BLE_GAP_AD_TYPE_128BIT_SERVICE_UUID_COMPLETE →
      (∀ g ∈ pre, g.type ≠ K.BLE_GAP_AD_TYPE_128BIT_SERVICE_UUID_COMPLETE) →
      adv_report_uuid128 K mem { p_data := data, data_len := dlen } env.type_data =
        some (K.NRF_SUCCESS,
          { p_data := data + ((adBytes pre).length + 2), data_len := f.len - 1 }) ∧
      on_ble_evt K env mem (.BLE_GAP_EVT_ADV_REPORT peer_addr data dlen) s =
        if readBytes mem (data + ((adBytes pre).length + 2)) 16 = nus_service_uuid then
          on_uuid_matched s peer_addr
        else s) := by
  have hd : dlen % 65536 = dlen := Nat.mod_eq_of_lt h.2.2.1
  constructor
  · intro pre f post hfs hf hpre
    subst hfs
    have hu : adv_report_uuid128 K mem { p_data := data, data_len := dlen } env.type_data =
        some (K.NRF_SUCCESS,
          { p_data := data + ((adBytes pre).length + 2), data_len := f.len - 1 }) := by
      rw [adv_report_uuid128, ← hf,
        adv_report_parse_found K mem _ env.type_data pre f post h (by rw [hf]; exact hpre)]
      simp
    refine ⟨hu, ?_⟩
    simp only [on_ble_evt, hd, hu, if_true]
  · intro pre f post hfs hno hf hpre
    subst hfs
    have hu : adv_report_uuid128 K mem { p_data := data, data_len := dlen } env.type_data =
        some (K.NRF_SUCCESS,
          { p_data := data + ((adBytes pre).length + 2), data_len := f.len - 1 }) := by
      rw [adv_report_uuid128, adv_report_parse_absent K mem _ _ env.type_data _ h hm hno]
      simp only [ne_eq, hK, not_false_eq_true, if_true]
      rw [← hf]
      exact adv_report_parse_found K mem _ env.type_data pre f post h (by rw [hf]; exact hpre)
    refine ⟨hu, ?_⟩
    simp only [on_ble_evt, hd, hu, if_true]

/-- C9, at a buffer at address `0x2000` whose first field is a complete field (type 7)
and whose second field is a more-available field (type 6) with the target UUID: the
bytes compared are those of the second field, at offset `5 + 2`. -/
theorem on_ble_evt_lookup_order_witness :
    adv_report_uuid128 Sdk.sample
        (memOf 0x2000 (adBytes [AdField.mk 7 [1, 2, 3], AdField.mk 6 nus_service_uuid]))
        { p_data := 0x2000, data_len := 23 } Env.quiet.type_data =
      some (Sdk.sample.NRF_SUCCESS,
        { p_data := 0x2000 + ((adBytes [AdField.mk 7 [1, 2, 3]]).length + 2),
          data_len := (AdField.mk 6 nus_service_uuid).len - 1 }) ∧
    on_ble_evt Sdk.sample Env.quiet
        (memOf 0x2000 (adBytes [AdField.mk 7 [1, 2, 3], AdField.mk 6 nus_service_uuid]))
        (.BLE_GAP_EVT_ADV_REPORT 77 0x2000 23) (App.initial 4) =
      if readBytes
          (memOf 0x2000 (adBytes [AdField.mk 7 [1, 2, 3], AdField.mk 6 nus_service_uuid]))
          (0x2000 + ((adBytes [AdField.mk 7 [1, 2, 3]]).length + 2)) 16 = nus_service_uuid then
        on_uuid_matched (App.initial 4) 77
      else App.initial 4 :=
  (on_ble_evt_lookup_order Sdk.sample
    (memOf 0x2000 (adBytes [AdField.mk 7 [1, 2, 3], AdField.mk 6 nus_service_uuid]))
    0x2000 23 [AdField.mk 7 [1, 2, 3], AdField.mk 6 nus_service_uuid] (by decide)
    (by decide) (by decide) Env.quiet 77 (App.initial 4)).1
    [AdField.mk 7 [1, 2, 3]] (AdField.mk 6 nus_service_uuid) [] rfl rfl (by decide)

/-- C10: on an advertisement report in which the lookup of `on_ble_evt` finds a 128-bit
service UUID field, the handler issues the scan stop request, sets
`m_scan_param.selective` to 0 and issues the connect request to the address of the
advertiser exactly when the 16 bytes at the value offset of the found field equal
`nus_service_uuid`; when they differ it makes no call and leaves the state as it was. -/
theorem on_ble_evt_connects_iff_uuid (K : Sdk) (env : Env) (mem : Mem)
    (peer_addr data dlen : Nat) (s : App) (type_data : data_t)
    (hfound : adv_report_uuid128 K mem { p_data := data, data_len := dlen % 65536 }
      env.type_data = some (K.NRF_SUCCESS, type_data)) :
    (readBytes mem type_data.p_data 16 = nus_service_uuid →
      on_ble_evt K env mem (.BLE_GAP_EVT_ADV_REPORT peer_addr data dlen) s =
        { s with
          m_scan_param := { s.m_scan_param with selective := 0 }
          calls := s.calls ++
            [.sd_ble_gap_scan_stop, .nrf_gpio_pin_clear .SCAN_LED_PIN_NO,
             .sd_ble_gap_connect peer_addr { s.m_scan_param with selective := 0 }] }) ∧
    (readBytes mem type_data.p_data 16 ≠ nus_service_uuid →
      on_ble_evt K env mem (.BLE_GAP_EVT_ADV_REPORT peer_addr data dlen) s = s) := by
  constructor
  · intro hm
    simp [on_ble_evt, hfound, hm, on_uuid_matched, App.call]
  · intro hm
    simp [on_ble_evt, hfound, hm]

/-- C10, at a report whose only field is a more-available field with the target UUID,
and at a report whose only field differs from the target in its last byte. -/
theorem on_ble_evt_connects_iff_uuid_witness :
    on_ble_evt Sdk.sample Env.quiet (memOf 0x2000 (adBytes [AdField.mk 6 nus_service_uuid]))
        (.BLE_GAP_EVT_ADV_REPORT 77 0x2000 18) (App.initial 4) =
      { App.initial 4 with
        m_scan_param := { (App.initial 4).m_scan_param with selective := 0 }
        calls := (App.initial 4).calls ++
          [.sd_ble_gap_scan_stop, .nrf_gpio_pin_clear .SCAN_LED_PIN_NO,
           .sd_ble_gap_connect 77 { (App.initial 4).m_scan_param with selective := 0 }] } ∧
    on_ble_evt Sdk.sample Env.quiet
        (memOf 0x2000 (adBytes [AdField.mk 7
          [0x9E, 0xCA, 0xDC, 0x24, 0x0E, 0xE5, 0xA9, 0xE0,
           0x93, 0xF3, 0xA3, 0xB5, 0x01, 0x00, 0x40, 0x6F]]))
        (.BLE_GAP_EVT_ADV_REPORT 77 0x2000 18) (App.initial 4) = App.initial 4 :=
  ⟨(on_ble_evt_connects_iff_uuid Sdk.sample Env.quiet
      (memOf 0x2000 (adBytes [AdField.mk 6 nus_service_uuid])) 77 0x2000 18 (App.initial 4)
      { p_data := 0x2002, data_len := 16 } (by decide)).1 (by decide),
   (on_ble_evt_connects_iff_uuid Sdk.sample Env.quiet
      (memOf 0x2000 (adBytes [AdField.mk 7
        [0x9E, 0xCA, 0xDC, 0x24, 0x0E, 0xE5, 0xA9, 0xE0,
         0x93, 0xF3, 0xA3, 0xB5, 0x01, 0x00, 0x40, 0x6F]])) 77 0x2000 18 (App.initial 4)
      { p_data := 0x2002, data_len := 16 } (by decide)).2 (by decide)⟩

/-! ## Lemmas on the scan controller -/

theorem scanStarts_append (a b : List Call) :
    scanStarts (a ++ b) = scanStarts a + scanStarts b := by
  simp [scanStarts, List.filter_append]

theorem scanStartCalls_append (a b : List Call) :
    scanStartCalls (a ++ b) = scanStartCalls a + scanStartCalls b := by
  simp [scanStartCalls, List.filter_append]

/-- With a flash access pending `scan_start` only sets the flag. -/
theorem scan_start_pending (K : Sdk) (env : Env) (s : App)
    (herr : env.pstorage_access_status_get.1 = K.NRF_SUCCESS)
    (hcount : env.pstorage_access_status_get.2 ≠ 0) :
    scan_start K env s =
      { s with
        m_memory_access_in_progress := true
        calls := s.calls ++ [.pstorage_access_status_get] } := by
  simp [scan_start, APP_ERROR_CHECK, App.call, herr, hcount]

/-- With no flash access pending and outside whitelist mode `scan_start` requests a
scan that is not selective. -/
theorem scan_start_general (K : Sdk) (env : Env) (s : App)
    (herr : env.pstorage_access_status_get.1 = K.NRF_SUCCESS)
    (hcount : env.pstorage_access_status_get.2 = 0)
    (hwl : env.dm_whitelist_create.1 = K.NRF_SUCCESS)
    (hmode : s.m_scan_mode ≠ BLE_WHITELIST_SCAN) :
    scan_start K env s =
      { s with
        m_scan_param :=
          { s.m_scan_param with
            active := 1, selective := 0, interval := SCAN_INTERVAL, window := SCAN_WINDOW,
            p_whitelist := none, timeout := 0 }
        calls := s.calls ++
          [.pstorage_access_status_get, .dm_whitelist_create,
           .sd_ble_gap_scan_start
             { s.m_scan_param with
               active := 1, selective := 0, interval := SCAN_INTERVAL, window := SCAN_WINDOW,
               p_whitelist := none, timeout := 0 },
           .nrf_gpio_pin_set
             (if env.sd_ble_gap_scan_start = K.NRF_SUCCESS then .SCAN_LED_PIN_NO
              else .ASSERT_LED_PIN_NO)]
        fault :=
          if env.sd_ble_gap_scan_start = K.NRF_SUCCESS then s.fault
          else some env.sd_ble_gap_scan_start } := by
  by_cases h : env.sd_ble_gap_scan_start = K.NRF_SUCCESS <;>
    simp [scan_start, APP_ERROR_CHECK, app_error_handler, App.call, herr, hcount, hwl,
      hmode, h]

theorem scan_start_peer_count (K : Sdk) (env : Env) (s : App) :
    (scan_start K env s).m_peer_count = s.m_peer_count := by
  simp only [scan_start, APP_ERROR_CHECK, app_error_handler, App.call]
  split_ifs <;> rfl

theorem scan_start_db_discovery (K : Sdk) (env : Env) (s : App) :
    (scan_start K env s).m_ble_db_discovery = s.m_ble_db_discovery := by
  simp only [scan_start, APP_ERROR_CHECK, app_error_handler, App.call]
  split_ifs <;> rfl

/-- Every invocation of `scan_start` asks once for the flash access status. -/
theorem scan_start_scanStartCalls (K : Sdk) (env : Env) (s : App) :
    scanStartCalls (scan_start K env s).calls = scanStartCalls s.calls + 1 := by
  simp only [scan_start, APP_ERROR_CHECK, app_error_handler, App.call]
  split_ifs <;> simp [scanStartCalls_append, scanStartCalls]

/-- An invocation of `scan_start` issues at most one request, and issues one only when
the flash access status was read with success and showed no pending access. -/
theorem scan_start_scanStarts (K : Sdk) (env : Env) (s : App) :
    scanStarts (scan_start K env s).calls =
      scanStarts s.calls +
        (if env.pstorage_access_status_get.1 = K.NRF_SUCCESS ∧
            env.pstorage_access_status_get.2 = 0 ∧
            env.dm_whitelist_create.1 = K.NRF_SUCCESS then 1 else 0) := by
  simp only [scan_start, APP_ERROR_CHECK, app_error_handler, App.call]
  split_ifs <;> simp_all [scanStarts_append, scanStarts]

/-- A fault is never cleared by `scan_start`. -/
theorem scan_start_fault (K : Sdk) (env : Env) (s : App)
    (h : (scan_start K env s).fault = none) : s.fault = none := by
  revert h
  simp only [scan_start, APP_ERROR_CHECK, app_error_handler, App.call]
  split_ifs <;> simp

/-- The scan mode is left as it was by `scan_start`: the branch that assigns the whitelist mode
is taken only in that mode. -/
theorem scan_start_scan_mode (K : Sdk) (env : Env) (s : App) :
    (scan_start K env s).m_scan_mode = s.m_scan_mode := by
  simp only [scan_start, APP_ERROR_CHECK, app_error_handler, App.call]
  split_ifs <;> simp_all

/-- Outside whitelist mode a scan timeout changes nothing. -/
theorem step_scan_timeout_idle (K : Sdk) (s : App) (i : Input)
    (hmode : s.m_scan_mode ≠ BLE_WHITELIST_SCAN)
    (hev : i.event = .ble (.BLE_GAP_EVT_TIMEOUT .BLE_GAP_TIMEOUT_SRC_SCAN)) :
    step K s i = s := by
  simp [step, hev, on_ble_evt, hmode]

theorem run_scan_timeout_idle (K : Sdk) :
    ∀ (is : List Input) (s : App), s.m_scan_mode ≠ BLE_WHITELIST_SCAN →
      (∀ j ∈ is, j.event = .ble (.BLE_GAP_EVT_TIMEOUT .BLE_GAP_TIMEOUT_SRC_SCAN)) →
      run K s is = s := by
  intro is
  induction is with
  | nil => intro s _ _; rfl
  | cons i is ih =>
    intro s hmode hev
    have h1 : step K s i = s := step_scan_timeout_idle K s i hmode (hev i (by simp))
    show run K (step K s i) is = s
    rw [h1]
    exact ih s hmode (fun j hj => hev j (by simp [hj]))

/-! ## Properties of the scan controller -/

/-- C5: the code at the failing input. From the initial state, with no flash access
pending and a whitelist of one bonded peer address returned by `dm_whitelist_create`,
the scan start request of `main` is not selective, carries no whitelist and no timeout,
and `m_scan_mode` stays `BLE_NO_SCAN`: the whitelist branch of `scan_start` requires
`m_scan_mode` to be `BLE_WHITELIST_SCAN` already. -/
theorem main_bonded_scan_not_selective :
    Env.bonded.dm_whitelist_create.2.addr_count = 1 ∧
    Env.bonded.pstorage_access_status_get = (Sdk.sample.NRF_SUCCESS, 0) ∧
    (main Sdk.sample Env.bonded 4).calls =
      [.pstorage_access_status_get, .dm_whitelist_create,
       .sd_ble_gap_scan_start
         { active := 1, selective := 0, p_whitelist := none, interval := 0x00A0,
           window := 0x0050, timeout := 0 },
       .nrf_gpio_pin_set .SCAN_LED_PIN_NO] ∧
    (main Sdk.sample Env.bonded 4).m_scan_mode = BLE_NO_SCAN := by
  decide

/-- C6: starting in whitelist mode with no flash access pending (the status call and
`dm_whitelist_create` succeed), the first of one or more scan timeouts sets
`m_scan_mode` to `BLE_FAST_SCAN` and issues exactly one scan start request, with
`selective = 0`, no whitelist and timeout 0; whatever number of the scan timeouts has
been handled after it, the state, and with it `m_scan_mode` and the calls made, is the
one the first timeout left. -/
theorem scan_timeout_leaves_whitelist_once (K : Sdk) (s : App) (i : Input)
    (is : List Input) (hmode : s.m_scan_mode = BLE_WHITELIST_SCAN) (hrun : s.fault = none)
    (hflash : i.env.pstorage_access_status_get = (K.NRF_SUCCESS, 0))
    (hwl : i.env.dm_whitelist_create.1 = K.NRF_SUCCESS)
    (hev : ∀ j ∈ i :: is, j.event = .ble (.BLE_GAP_EVT_TIMEOUT .BLE_GAP_TIMEOUT_SRC_SCAN)) :
    (step K s i).m_scan_mode = BLE_FAST_SCAN ∧
    (step K s i).calls = s.calls ++
      [.pstorage_access_status_get, .dm_whitelist_create,
       .sd_ble_gap_scan_start
         { s.m_scan_param with
           active := 1, selective := 0, interval := SCAN_INTERVAL, window := SCAN_WINDOW,
           p_whitelist := none, timeout := 0 },
       .nrf_gpio_pin_set
         (if i.env.sd_ble_gap_scan_start = K.NRF_SUCCESS then .SCAN_LED_PIN_NO
          else .ASSERT_LED_PIN_NO)] ∧
    scanStarts (step K s i).calls = scanStarts s.calls + 1 ∧
    ∀ n, run K s ((i :: is).take (n + 1)) = step K s i := by
  have h1 : step K s i =
      scan_start K i.env { s with m_scan_mode := BLE_FAST_SCAN } := by
    simp [step, hrun, hev i (by simp), on_ble_evt, hmode]
  have herr : i.env.pstorage_access_status_get.1 = K.NRF_SUCCESS := by rw [hflash]
  have hcount : i.env.pstorage_access_status_get.2 = 0 := by rw [hflash]
  have hfast : ({ s with m_scan_mode := BLE_FAST_SCAN } : App).m_scan_mode ≠
      BLE_WHITELIST_SCAN := by
    show BLE_FAST_SCAN ≠ BLE_WHITELIST_SCAN
    decide
  have hm : (step K s i).m_scan_mode = BLE_FAST_SCAN := by
    rw [h1, scan_start_scan_mode]
  refine ⟨hm, ?_, ?_, ?_⟩
  · rw [h1, scan_start_general K i.env _ herr hcount hwl hfast]
  · rw [h1, scan_start_scanStarts]
    simp [herr, hcount, hwl]
  · intro n
    show run K (step K s i) (is.take n) = step K s i
    apply run_scan_timeout_idle
    · rw [hm]; decide
    · intro j hj
      exact hev j (List.mem_cons_of_mem _ (List.mem_of_mem_take hj))

/-- C6, at a state in whitelist mode and three scan timeouts with no flash access
pending. -/
theorem scan_timeout_leaves_whitelist_once_witness :
    (step Sdk.sample { App.initial 4 with m_scan_mode := BLE_WHITELIST_SCAN }
      (Input.scanTimeout Env.bonded)).m_scan_mode = BLE_FAST_SCAN ∧
    (step Sdk.sample { App.initial 4 with m_scan_mode := BLE_WHITELIST_SCAN }
      (Input.scanTimeout Env.bonded)).calls =
      ({ App.initial 4 with m_scan_mode := BLE_WHITELIST_SCAN } : App).calls ++
      [.pstorage_access_status_get, .dm_whitelist_create,
       .sd_ble_gap_scan_start
         { ({ App.initial 4 with m_scan_mode := BLE_WHITELIST_SCAN } : App).m_scan_param with
           active := 1, selective := 0, interval := SCAN_INTERVAL, window := SCAN_WINDOW,
           p_whitelist := none, timeout := 0 },
       .nrf_gpio_pin_set
         (if (Input.scanTimeout Env.bonded).env.sd_ble_gap_scan_start =
            Sdk.sample.NRF_SUCCESS then .SCAN_LED_PIN_NO
          else .ASSERT_LED_PIN_NO)] ∧
    scanStarts (step Sdk.sample { App.initial 4 with m_scan_mode := BLE_WHITELIST_SCAN }
      (Input.scanTimeout Env.bonded)).calls =
      scanStarts ({ App.initial 4 with m_scan_mode := BLE_WHITELIST_SCAN } : App).calls + 1 ∧
    ∀ n, run Sdk.sample { App.initial 4 with m_scan_mode := BLE_WHITELIST_SCAN }
        ((Input.scanTimeout Env.bonded ::
          [Input.scanTimeout Env.bonded, Input.scanTimeout Env.quiet]).take (n + 1)) =
      step Sdk.sample { App.initial 4 with m_scan_mode := BLE_WHITELIST_SCAN }
        (Input.scanTimeout Env.bonded) :=
  scan_timeout_leaves_whitelist_once Sdk.sample
    { App.initial 4 with m_scan_mode := BLE_WHITELIST_SCAN } (Input.scanTimeout Env.bonded)
    [Input.scanTimeout Env.bonded, Input.scanTimeout Env.quiet] rfl rfl rfl rfl
    (by
      intro j hj
      simp only [List.mem_cons, List.mem_singleton, List.not_mem_nil, or_false] at hj
      rcases hj with rfl | rfl | rfl <;> rfl)

/-- C7, as stated, fails: `scan_start` does not read `m_memory_access_in_progress`.
After `main` has found a flash access pending the flag is set and no request has been
issued; a connection event handled next, with no flash access pending any more, calls
`scan_start`, which issues the scan start request although the flag is still set and
no flash completion event has reached `on_sys_evt`. -/
theorem scan_start_ignores_flag :
    (main Sdk.sample Env.busy 4).m_memory_access_in_progress = true ∧
    scanStarts (main Sdk.sample Env.busy 4).calls = 0 ∧
    scanStarts (run Sdk.sample (main Sdk.sample Env.busy 4)
      [Input.dmEvent Env.quiet 5 .DM_EVT_CONNECTION 1]).calls = 1 ∧
    (run Sdk.sample (main Sdk.sample Env.busy 4)
      [Input.dmEvent Env.quiet 5 .DM_EVT_CONNECTION 1]).m_memory_access_in_progress = true := by
  decide

/-- C7, amended: when `pstorage_access_status_get` reports a pending flash access, a
call to `scan_start` issues no scan start request and sets
`m_memory_access_in_progress`; a flash completion event, success or error alike, that
reaches `on_sys_evt` while the flag is set clears the flag and calls `scan_start`
exactly once, and that call issues the one scan start request when no flash access is
pending any more; while the flag is clear such an event does nothing. -/
theorem scan_start_deferred_to_flash_event (K : Sdk) (env : Env) (s : App) :
    (env.pstorage_access_status_get.1 = K.NRF_SUCCESS →
      env.pstorage_access_status_get.2 ≠ 0 →
      scan_start K env s =
        { s with
          m_memory_access_in_progress := true
          calls := s.calls ++ [.pstorage_access_status_get] } ∧
      scanStarts (scan_start K env s).calls = scanStarts s.calls) ∧
    (∀ sys_evt, sys_evt = .NRF_EVT_FLASH_OPERATION_SUCCESS ∨
        sys_evt = .NRF_EVT_FLASH_OPERATION_ERROR →
      (s.m_memory_access_in_progress = true →
        on_sys_evt K env sys_evt s =
          scan_start K env { s with m_memory_access_in_progress := false } ∧
        scanStartCalls (on_sys_evt K env sys_evt s).calls = scanStartCalls s.calls + 1 ∧
        (env.pstorage_access_status_get = (K.NRF_SUCCESS, 0) →
          env.dm_whitelist_create.1 = K.NRF_SUCCESS →
          scanStarts (on_sys_evt K env sys_evt s).calls = scanStarts s.calls + 1 ∧
          (on_sys_evt K env sys_evt s).m_memory_access_in_progress = false)) ∧
      (s.m_memory_access_in_progress = false → on_sys_evt K env sys_evt s = s)) := by
  refine ⟨fun herr hcount => ⟨scan_start_pending K env s herr hcount, ?_⟩, ?_⟩
  · rw [scan_start_scanStarts]
    simp [hcount]
  · intro sys_evt hevt
    have hon : s.m_memory_access_in_progress = true →
        on_sys_evt K env sys_evt s =
          scan_start K env { s with m_memory_access_in_progress := false } := by
      intro hflag
      rcases hevt with rfl | rfl <;> simp [on_sys_evt, hflag]
    refine ⟨fun hflag => ⟨hon hflag, ?_, ?_⟩, ?_⟩
    · rw [hon hflag, scan_start_scanStartCalls]
    · intro hflash hwl
      have herr : env.pstorage_access_status_get.1 = K.NRF_SUCCESS := by rw [hflash]
      have hcount : env.pstorage_access_status_get.2 = 0 := by rw [hflash]
      rw [hon hflag]
      constructor
      · rw [scan_start_scanStarts]
        simp [herr, hcount, hwl]
      · simp only [scan_start, APP_ERROR_CHECK, app_error_handler, App.call]
        split_ifs <;> simp_all
    · intro hflag
      rcases hevt with rfl | rfl <;> simp [on_sys_evt, hflag]

/-- C7, amended, at the state `main` leaves when a flash access is pending: the scan is
deferred, and the flash error event that follows it with no access pending issues the
request. -/
theorem scan_start_deferred_to_flash_event_witness :
    (scan_start Sdk.sample Env.busy (App.initial 4) =
        { App.initial 4 with
          m_memory_access_in_progress := true
          calls := (App.initial 4).calls ++ [.pstorage_access_status_get] } ∧
      scanStarts (scan_start Sdk.sample Env.busy (App.initial 4)).calls =
        scanStarts (App.initial 4).calls) ∧
    (on_sys_evt Sdk.sample Env.quiet .NRF_EVT_FLASH_OPERATION_ERROR
          (main Sdk.sample Env.busy 4) =
        scan_start Sdk.sample Env.quiet
          { main Sdk.sample Env.busy 4 with m_memory_access_in_progress := false } ∧
      scanStartCalls (on_sys_evt Sdk.sample Env.quiet .NRF_EVT_FLASH_OPERATION_ERROR
          (main Sdk.sample Env.busy 4)).calls =
        scanStartCalls (main Sdk.sample Env.busy 4).calls + 1 ∧
      (Env.quiet.pstorage_access_status_get = (Sdk.sample.NRF_SUCCESS, 0) →
        Env.quiet.dm_whitelist_create.1 = Sdk.sample.NRF_SUCCESS →
        scanStarts (on_sys_evt Sdk.sample Env.quiet .NRF_EVT_FLASH_OPERATION_ERROR
            (main Sdk.sample Env.busy 4)).calls =
          scanStarts (main Sdk.sample Env.busy 4).calls + 1 ∧
        (on_sys_evt Sdk.sample Env.quiet .NRF_EVT_FLASH_OPERATION_ERROR
            (main Sdk.sample Env.busy 4)).m_memory_access_in_progress = false)) :=
  ⟨(scan_start_deferred_to_flash_event Sdk.sample Env.busy (App.initial 4)).1
      (by decide) (by decide),
   ((scan_start_deferred_to_flash_event Sdk.sample Env.quiet
      (main Sdk.sample Env.busy 4)).2 .NRF_EVT_FLASH_OPERATION_ERROR (Or.inr rfl)).1
      (by decide)⟩

/-! ## Lemmas on the handlers -/

theorem on_ble_evt_peer_count (K : Sdk) (env : Env) (mem : Mem) (e : ble_evt_t) (s : App) :
    (on_ble_evt K env mem e s).m_peer_count = s.m_peer_count := by
  cases e with
  | BLE_GAP_EVT_ADV_REPORT peer_addr data dlen =>
    simp only [on_ble_evt]
    split
    · rfl
    · split_ifs <;> rfl
  | BLE_GAP_EVT_TIMEOUT src =>
    cases src <;> simp only [on_ble_evt]
    split_ifs
    · rw [scan_start_peer_count]
    · rfl
  | BLE_GAP_EVT_CONN_PARAM_UPDATE_REQUEST conn_handle conn_params =>
    simp only [on_ble_evt, APP_ERROR_CHECK, app_error_handler, App.call]
    split_ifs <;> rfl
  | other evt_id => rfl

theorem on_sys_evt_peer_count (K : Sdk) (env : Env) (e : sys_evt_t) (s : App) :
    (on_sys_evt K env e s).m_peer_count = s.m_peer_count := by
  cases e <;> simp only [on_sys_evt]
  all_goals
    split_ifs
    · rw [scan_start_peer_count]
    · rfl

/-- The peer count after a device-manager event: a connection counts up and a
disconnection counts down, both in 8 bits, unless the handler ends in
`app_error_handler` before the assignment; other events leave the count. -/
theorem device_manager_event_handler_peer_count (K : Sdk) (env : Env)
    (p_handle : dm_handle_t) (p_event : dm_event_t) (event_result : Nat) (s : App)
    (hrun : s.fault = none) :
    match p_event.event_id with
    | .DM_EVT_CONNECTION =>
      ((device_manager_event_handler K env p_handle p_event event_result s).m_peer_count =
          s.m_peer_count ∧
        (device_manager_event_handler K env p_handle p_event event_result s).fault ≠ none) ∨
      (device_manager_event_handler K env p_handle p_event event_result s).m_peer_count =
        (s.m_peer_count + 1) % 256
    | .DM_EVT_DISCONNECTION =>
      ((device_manager_event_handler K env p_handle p_event event_result s).m_peer_count =
          s.m_peer_count ∧
        (device_manager_event_handler K env p_handle p_event event_result s).fault ≠ none) ∨
      (device_manager_event_handler K env p_handle p_event event_result s).m_peer_count =
        (s.m_peer_count + 255) % 256
    | _ =>
      (device_manager_event_handler K env p_handle p_event event_result s).m_peer_count =
        s.m_peer_count := by
  obtain ⟨id, conn_handle⟩ := p_event
  cases id
  case DM_EVT_CONNECTION =>
    simp only [device_manager_event_handler, APP_ERROR_CHECK, app_error_handler, App.call]
    split_ifs
    · left; exact ⟨rfl, by simp⟩
    · right; rw [scan_start_peer_count]
    · right; rfl
  case DM_EVT_DISCONNECTION =>
    simp only [device_manager_event_handler, App.call, App.andThen]
    split_ifs with h1 h2 h2
    · left
      refine ⟨by rw [scan_start_peer_count], ?_⟩
      intro hn
      rw [hn] at h2
      cases h2
    · right
      show ((scan_start K env _).m_peer_count + 255) % 256 = _
      rw [scan_start_peer_count]
    · exfalso
      have : s.fault.isSome = true := h2
      rw [hrun] at this
      cases this
    · right; rfl
  all_goals
    simp only [device_manager_event_handler, APP_ERROR_CHECK, app_error_handler, App.call]
    try split_ifs
    all_goals rfl

/-- The peer count stays an 8-bit value. -/
theorem step_peer_count_lt (K : Sdk) (s : App) (i : Input) (h : s.m_peer_count < 256) :
    (step K s i).m_peer_count < 256 := by
  unfold step
  split_ifs with hf
  · exact h
  · have hrun : s.fault = none := by
      cases hs : s.fault with
      | none => rfl
      | some e => rw [hs] at hf; exact absurd rfl hf
    split
    · rename_i p_handle p_event event_result _
      have := device_manager_event_handler_peer_count K i.env p_handle p_event event_result
        s hrun
      split at this
      · rcases this with ⟨h1, _⟩ | h1 <;> rw [h1]
        · exact h
        · exact Nat.mod_lt _ (by norm_num)
      · rcases this with ⟨h1, _⟩ | h1 <;> rw [h1]
        · exact h
        · exact Nat.mod_lt _ (by norm_num)
      · rw [this]; exact h
    · rw [on_ble_evt_peer_count]; exact h
    · rw [on_sys_evt_peer_count]; exact h

theorem run_peer_count_lt (K : Sdk) :
    ∀ (is : List Input) (s : App), s.m_peer_count < 256 → (run K s is).m_peer_count < 256 := by
  intro is
  induction is with
  | nil => intro s h; exact h
  | cons i is ih => intro s h; exact ih _ (step_peer_count_lt K s i h)

theorem main_peer_count (K : Sdk) (env : Env) (db_len : Nat) :
    (main K env db_len).m_peer_count = 0 := by
  rw [main, scan_start_peer_count]
  rfl

theorem Reachable.peer_count_lt {K : Sdk} {db_len : Nat} {s : App}
    (h : Reachable K db_len s) : s.m_peer_count < 256 := by
  obtain ⟨env, is, rfl⟩ := h
  apply run_peer_count_lt
  rw [main_peer_count]
  norm_num

/-! ## Properties of the session tracker -/

/-- C8: on a `DM_EVT_DISCONNECTION` event `device_manager_event_handler` clears the
discovery state, calls `scan_start` exactly once if `m_peer_count` equalled
`MAX_PEER_COUNT` before the event and not at all otherwise, and, where it returns
(`scan_start` did not end in `app_error_handler`), has decremented the 8-bit
`m_peer_count` by one. -/
theorem disconnection_clears_decrements_rescans (K : Sdk) (env : Env)
    (p_handle : dm_handle_t) (p_event : dm_event_t) (event_result : Nat) (s : App)
    (hev : p_event.event_id = .DM_EVT_DISCONNECTION) :
    (device_manager_event_handler K env p_handle p_event event_result s).m_ble_db_discovery =
      List.replicate s.m_ble_db_discovery.length 0 ∧
    scanStartCalls (device_manager_event_handler K env p_handle p_event event_result s).calls =
      scanStartCalls s.calls + (if s.m_peer_count = MAX_PEER_COUNT K then 1 else 0) ∧
    ((device_manager_event_handler K env p_handle p_event event_result s).fault = none →
      (device_manager_event_handler K env p_handle p_event event_result s).m_peer_count =
        (s.m_peer_count + 255) % 256 ∧
      (0 < s.m_peer_count → s.m_peer_count < 256 →
        (device_manager_event_handler K env p_handle p_event event_result s).m_peer_count + 1 =
          s.m_peer_count)) ∧
    (s.fault = none → s.m_peer_count ≠ MAX_PEER_COUNT K →
      (device_manager_event_handler K env p_handle p_event event_result s).fault = none) := by
  have hdec : ∀ n : Nat, 0 < n → n < 256 → (n + 255) % 256 + 1 = n := by
    intro n h0 h1
    omega
  have hr : device_manager_event_handler K env p_handle p_event event_result s =
      (if s.m_peer_count = MAX_PEER_COUNT K then
        scan_start K env
          { s with
            m_ble_db_discovery := List.replicate s.m_ble_db_discovery.length 0
            calls := s.calls ++ [.nrf_gpio_pin_clear .CONNECTED_LED_PIN_NO] }
      else
        { s with
          m_ble_db_discovery := List.replicate s.m_ble_db_discovery.length 0
          calls := s.calls ++ [.nrf_gpio_pin_clear .CONNECTED_LED_PIN_NO] }).andThen
        fun t => { t with m_peer_count := (t.m_peer_count + 255) % 256 } := by
    simp only [device_manager_event_handler, hev, App.call]
  rw [hr]
  by_cases hmax : s.m_peer_count = MAX_PEER_COUNT K
  · rw [if_pos hmax, if_pos hmax]
    unfold App.andThen
    split_ifs with hf
    · refine ⟨?_, ?_, ?_, ?_⟩
      · rw [scan_start_db_discovery]
      · rw [scan_start_scanStartCalls]
        simp [scanStartCalls_append, scanStartCalls]
      · intro hnone
        rw [hnone] at hf
        cases hf
      · intro _ hne
        exact absurd hmax hne
    · refine ⟨?_, ?_, ?_, ?_⟩
      · show (scan_start K env _).m_ble_db_discovery = _
        rw [scan_start_db_discovery]
      · show scanStartCalls (scan_start K env _).calls = _
        rw [scan_start_scanStartCalls]
        simp [scanStartCalls_append, scanStartCalls]
      · intro _
        show ((scan_start K env _).m_peer_count + 255) % 256 = _ ∧
          (_ → _ → ((scan_start K env _).m_peer_count + 255) % 256 + 1 = _)
        rw [scan_start_peer_count]
        exact ⟨rfl, fun h0 h1 => hdec _ h0 h1⟩
      · intro _ hne
        exact absurd hmax hne
  · rw [if_neg hmax, if_neg hmax]
    unfold App.andThen
    split_ifs with hf
    · have hf2 : s.fault.isSome = true := hf
      refine ⟨rfl, ?_, ?_, ?_⟩
      · simp [scanStartCalls_append, scanStartCalls]
      · intro hnone
        have : s.fault = none := hnone
        rw [this] at hf2
        cases hf2
      · intro hnone _
        rw [hnone] at hf2
        cases hf2
    · have hf2 : ¬ s.fault.isSome = true := hf
      refine ⟨rfl, ?_, ?_, ?_⟩
      · simp [scanStartCalls_append, scanStartCalls]
      · intro _
        exact ⟨rfl, fun h0 h1 => hdec _ h0 h1⟩
      · intro hnone _
        exact hnone

/-- C8, at a state with `MAX_PEER_COUNT = 2` peers and a non-zero discovery structure:
the structure is cleared, `scan_start` is called once and the count goes to 1. -/
theorem disconnection_clears_decrements_rescans_witness :
    (device_manager_event_handler Sdk.sample Env.quiet 5
        { event_id := .DM_EVT_DISCONNECTION, conn_handle := 1 } 0
        { App.initial 4 with m_peer_count := 2, m_ble_db_discovery := [1, 2, 3, 4] }
      ).m_ble_db_discovery = [0, 0, 0, 0] ∧
    scanStartCalls (device_manager_event_handler Sdk.sample Env.quiet 5
        { event_id := .DM_EVT_DISCONNECTION, conn_handle := 1 } 0
        { App.initial 4 with m_peer_count := 2, m_ble_db_discovery := [1, 2, 3, 4] }
      ).calls = 0 + 1 ∧
    (device_manager_event_handler Sdk.sample Env.quiet 5
        { event_id := .DM_EVT_DISCONNECTION, conn_handle := 1 } 0
        { App.initial 4 with m_peer_count := 2, m_ble_db_discovery := [1, 2, 3, 4] }
      ).m_peer_count = 1 :=
  ⟨(disconnection_clears_decrements_rescans Sdk.sample Env.quiet 5
      { event_id := .DM_EVT_DISCONNECTION, conn_handle := 1 } 0
      { App.initial 4 with m_peer_count := 2, m_ble_db_discovery := [1, 2, 3, 4] } rfl).1,
   (disconnection_clears_decrements_rescans Sdk.sample Env.quiet 5
      { event_id := .DM_EVT_DISCONNECTION, conn_handle := 1 } 0
      { App.initial 4 with m_peer_count := 2, m_ble_db_discovery := [1, 2, 3, 4] } rfl).2.1,
   ((disconnection_clears_decrements_rescans Sdk.sample Env.quiet 5
      { event_id := .DM_EVT_DISCONNECTION, conn_handle := 1 } 0
      { App.initial 4 with m_peer_count := 2, m_ble_db_discovery := [1, 2, 3, 4] } rfl).2.2.1
      (by decide)).1⟩

/-- C3, as stated, fails: the handler counts without a guard. With
`MAX_PEER_COUNT = 2`, a disconnection event handled while no peer is connected wraps
the 8-bit counter to 255, and three connection events in a row count up to 3. -/
theorem peer_count_exceeds_max :
    MAX_PEER_COUNT Sdk.sample = 2 ∧
    (main Sdk.sample Env.quiet 4).m_peer_count = 0 ∧
    (run Sdk.sample (main Sdk.sample Env.quiet 4)
      [Input.dmEvent Env.quiet 5 .DM_EVT_DISCONNECTION 1]).m_peer_count = 255 ∧
    (run Sdk.sample (main Sdk.sample Env.quiet 4)
      [Input.dmEvent Env.quiet 5 .DM_EVT_CONNECTION 1,
       Input.dmEvent Env.quiet 6 .DM_EVT_CONNECTION 2,
       Input.dmEvent Env.quiet 7 .DM_EVT_CONNECTION 3]).m_peer_count = 3 := by
  decide

/-- The count follows the links: with `n` peers connected, `n` at most `max`, and the
counter equal to `n` in 8 bits while the application runs, the counter stays at most
`max` along events that respect the links. -/
theorem run_peer_count_le (K : Sdk) :
    ∀ (is : List Input) (s : App) (n : Nat), n ≤ MAX_PEER_COUNT K →
      s.m_peer_count ≤ MAX_PEER_COUNT K →
      (s.fault = none → s.m_peer_count = n % 256) →
      linksRespected (MAX_PEER_COUNT K) n is = true →
      (run K s is).m_peer_count ≤ MAX_PEER_COUNT K := by
  intro is
  induction is with
  | nil => intro s n _ h _ _; exact h
  | cons i is ih =>
    intro s n hn hle heq hl
    show (run K (step K s i) is).m_peer_count ≤ _
    by_cases hf : s.fault.isSome = true
    · have hs : step K s i = s := by simp [step, hf]
      have hnone : ¬ s.fault = none := by
        intro h0; rw [h0] at hf; cases hf
      rw [hs]
      cases hev : i.event with
      | dm p_handle p_event event_result =>
        obtain ⟨id, conn_handle⟩ := p_event
        cases id with
        | DM_EVT_CONNECTION =>
          simp only [linksRespected, hev, Bool.and_eq_true, decide_eq_true_eq] at hl
          exact ih s (n + 1) (by omega) hle (fun h => absurd h hnone) hl.2
        | DM_EVT_DISCONNECTION =>
          simp only [linksRespected, hev, Bool.and_eq_true, decide_eq_true_eq] at hl
          exact ih s (n - 1) (by omega) hle (fun h => absurd h hnone) hl.2
        | _ =>
          simp only [linksRespected, hev] at hl
          exact ih s n hn hle (fun h => absurd h hnone) hl
      | ble e =>
        simp only [linksRespected, hev] at hl
        exact ih s n hn hle (fun h => absurd h hnone) hl
      | sys e =>
        simp only [linksRespected, hev] at hl
        exact ih s n hn hle (fun h => absurd h hnone) hl
    · have hrun : s.fault = none := by
        cases hs : s.fault with
        | none => rfl
        | some e => rw [hs] at hf; exact absurd rfl hf
      have hcount := heq hrun
      cases hev : i.event with
      | dm p_handle p_event event_result =>
        have hstep : step K s i =
            device_manager_event_handler K i.env p_handle p_event event_result s := by
          simp [step, hf, hev]
        have hpc := device_manager_event_handler_peer_count K i.env p_handle p_event
          event_result s hrun
        rw [← hstep] at hpc
        obtain ⟨id, conn_handle⟩ := p_event
        cases id with
        | DM_EVT_CONNECTION =>
          simp only [linksRespected, hev, Bool.and_eq_true, decide_eq_true_eq] at hl
          simp only at hpc
          rcases hpc with ⟨h1, h2⟩ | h1
          · exact ih _ (n + 1) (by omega) (by rw [h1]; exact hle)
              (fun h => absurd h h2) hl.2
          · have h3 : (step K s i).m_peer_count = (n + 1) % 256 := by
              rw [h1, hcount]; omega
            exact ih _ (n + 1) (by omega)
              (by rw [h3]; exact le_trans (Nat.mod_le _ _) (by omega)) (fun _ => h3) hl.2
        | DM_EVT_DISCONNECTION =>
          simp only [linksRespected, hev, Bool.and_eq_true, decide_eq_true_eq] at hl
          simp only at hpc
          rcases hpc with ⟨h1, h2⟩ | h1
          · exact ih _ (n - 1) (by omega) (by rw [h1]; exact hle)
              (fun h => absurd h h2) hl.2
          · have h3 : (step K s i).m_peer_count = (n - 1) % 256 := by
              rw [h1, hcount]; omega
            exact ih _ (n - 1) (by omega)
              (by rw [h3]; exact le_trans (Nat.mod_le _ _) (by omega)) (fun _ => h3) hl.2
        | _ =>
          simp only [linksRespected, hev] at hl
          simp only at hpc
          exact ih _ n hn (by rw [hpc]; exact hle) (fun _ => by rw [hpc]; exact hcount) hl
      | ble e =>
        have hstep : step K s i = on_ble_evt K i.env i.mem e s := by
          simp [step, hf, hev]
        simp only [linksRespected, hev] at hl
        have hpc : (step K s i).m_peer_count = s.m_peer_count := by
          rw [hstep, on_ble_evt_peer_count]
        exact ih _ n hn (by rw [hpc]; exact hle) (fun _ => by rw [hpc]; exact hcount) hl
      | sys e =>
        have hstep : step K s i = on_sys_evt K i.env e s := by
          simp [step, hf, hev]
        simp only [linksRespected, hev] at hl
        have hpc : (step K s i).m_peer_count = s.m_peer_count := by
          rw [hstep, on_sys_evt_peer_count]
        exact ih _ n hn (by rw [hpc]; exact hle) (fun _ => by rw [hpc]; exact hcount) hl

/-- C3, amended: starting from `m_peer_count = 0`, after any finite sequence of events
in which no `DM_EVT_DISCONNECTION` arrives while no peer is connected and no
`DM_EVT_CONNECTION` arrives while `MAX_PEER_COUNT` peers are connected, `m_peer_count`
is at most `MAX_PEER_COUNT`. -/
theorem peer_count_le_max (K : Sdk) (s : App) (is : List Input)
    (h0 : s.m_peer_count = 0)
    (hlinks : linksRespected (MAX_PEER_COUNT K) 0 is = true) :
    (run K s is).m_peer_count ≤ MAX_PEER_COUNT K :=
  run_peer_count_le K is s 0 (Nat.zero_le _) (by rw [h0]; exact Nat.zero_le _)
    (fun _ => by rw [h0]) hlinks

/-- C3, amended, at two connections, a disconnection and a connection after `main`. -/
theorem peer_count_le_max_witness :
    (run Sdk.sample (main Sdk.sample Env.quiet 4)
      [Input.dmEvent Env.quiet 5 .DM_EVT_CONNECTION 1,
       Input.dmEvent Env.quiet 6 .DM_EVT_CONNECTION 2,
       Input.dmEvent Env.quiet 5 .DM_EVT_DISCONNECTION 1,
       Input.dmEvent Env.quiet 7 .DM_EVT_CONNECTION 3]).m_peer_count ≤
      MAX_PEER_COUNT Sdk.sample :=
  peer_count_le_max Sdk.sample (main Sdk.sample Env.quiet 4)
    [Input.dmEvent Env.quiet 5 .DM_EVT_CONNECTION 1,
     Input.dmEvent Env.quiet 6 .DM_EVT_CONNECTION 2,
     Input.dmEvent Env.quiet 5 .DM_EVT_DISCONNECTION 1,
     Input.dmEvent Env.quiet 7 .DM_EVT_CONNECTION 3] (by decide) (by decide)

/-- Where `scan_start` finds no flash access pending it leaves the flag as it was. -/
theorem scan_start_flag (K : Sdk) (env : Env) (s : App)
    (hcount : env.pstorage_access_status_get.2 = 0) :
    (scan_start K env s).m_memory_access_in_progress = s.m_memory_access_in_progress := by
  simp only [scan_start, APP_ERROR_CHECK, app_error_handler, App.call]
  split_ifs <;> simp_all

/-- A request of `scan_start` shows that the flash access status was read with success
and showed no pending access. -/
theorem scan_start_request (K : Sdk) (env : Env) (s : App) (base : Nat)
    (hb : scanStarts s.calls = base)
    (h : scanStarts (scan_start K env s).calls ≠ base) :
    env.pstorage_access_status_get = (K.NRF_SUCCESS, 0) := by
  rw [scan_start_scanStarts, hb] at h
  split_ifs at h with hc
  · exact Prod.ext hc.1 hc.2.1
  · exact absurd rfl h

theorem device_manager_event_handler_request (K : Sdk) (env : Env)
    (p_handle : dm_handle_t) (p_event : dm_event_t) (event_result : Nat) (s : App)
    (hlt : s.m_peer_count < 256)
    (h : scanStarts (device_manager_event_handler K env p_handle p_event event_result s).calls ≠
      scanStarts s.calls) :
    env.pstorage_access_status_get = (K.NRF_SUCCESS, 0) ∧
    (0 < MAX_PEER_COUNT K →
      (device_manager_event_handler K env p_handle p_event event_result s).fault = none →
      (device_manager_event_handler K env p_handle p_event event_result s).m_peer_count <
        MAX_PEER_COUNT K) := by
  obtain ⟨id, conn_handle⟩ := p_event
  cases id with
  | DM_EVT_CONNECTION =>
    revert h
    simp only [device_manager_event_handler, APP_ERROR_CHECK, app_error_handler, App.call]
    split_ifs with h1 h2
    · intro h
      exact absurd (by simp [scanStarts_append, scanStarts]) h
    · intro h
      refine ⟨scan_start_request K env _ _ (by simp [scanStarts_append, scanStarts]) h, ?_⟩
      intro _ _
      rw [scan_start_peer_count]
      exact h2
    · intro h
      exact absurd (by simp [scanStarts_append, scanStarts]) h
  | DM_EVT_DISCONNECTION =>
    revert h
    simp only [device_manager_event_handler, App.call, App.andThen]
    split_ifs with h1 h2 h2
    · intro h
      refine ⟨scan_start_request K env _ _ (by simp [scanStarts_append, scanStarts]) h, ?_⟩
      intro _ hn
      rw [hn] at h2
      cases h2
    · intro h
      refine ⟨scan_start_request K env _ _ (by simp [scanStarts_append, scanStarts]) h, ?_⟩
      intro hpos _
      show ((scan_start K env _).m_peer_count + 255) % 256 < _
      rw [scan_start_peer_count]
      show (s.m_peer_count + 255) % 256 < _
      rw [← h1]
      omega
    · intro h
      exact absurd (by simp [scanStarts_append, scanStarts]) h
    · intro h
      exact absurd (by simp [scanStarts_append, scanStarts]) h
  | _ =>
    exfalso
    revert h
    simp only [device_manager_event_handler, APP_ERROR_CHECK, app_error_handler, App.call]
    try split_ifs
    all_goals simp [scanStarts_append, scanStarts]

theorem on_ble_evt_request (K : Sdk) (env : Env) (mem : Mem) (e : ble_evt_t) (s : App)
    (h : scanStarts (on_ble_evt K env mem e s).calls ≠ scanStarts s.calls) :
    env.pstorage_access_status_get = (K.NRF_SUCCESS, 0) := by
  cases e with
  | BLE_GAP_EVT_ADV_REPORT peer_addr data dlen =>
    exfalso
    revert h
    simp only [on_ble_evt]
    split
    · simp
    · split_ifs <;> simp [on_uuid_matched, App.call, scanStarts_append, scanStarts]
  | BLE_GAP_EVT_TIMEOUT src =>
    cases src with
    | BLE_GAP_TIMEOUT_SRC_SCAN =>
      revert h
      simp only [on_ble_evt]
      split_ifs
      · intro h
        exact scan_start_request K env _ _ rfl h
      · intro h
        exact absurd rfl h
    | _ => exact absurd rfl h
  | BLE_GAP_EVT_CONN_PARAM_UPDATE_REQUEST conn_handle conn_params =>
    exfalso
    revert h
    simp only [on_ble_evt, APP_ERROR_CHECK, app_error_handler, App.call]
    split_ifs <;> simp [scanStarts_append, scanStarts]
  | other evt_id => exact absurd rfl h

theorem on_sys_evt_request (K : Sdk) (env : Env) (e : sys_evt_t) (s : App)
    (h : scanStarts (on_sys_evt K env e s).calls ≠ scanStarts s.calls) :
    env.pstorage_access_status_get = (K.NRF_SUCCESS, 0) ∧
    (on_sys_evt K env e s).m_memory_access_in_progress = false := by
  cases e with
  | other evt => exact absurd rfl h
  | _ =>
    revert h
    simp only [on_sys_evt]
    split_ifs
    · intro h
      have hreq := scan_start_request K env _ _ rfl h
      refine ⟨hreq, ?_⟩
      rw [scan_start_flag K env _ (by rw [hreq])]
    · intro h
      exact absurd rfl h

/-! ## When a scan start request is issued -/

/-- C4, as stated, fails. With `MAX_PEER_COUNT = 2`: (1) after two connections the
disconnection handler enters `scan_start` (line 255) before it decrements (line 257),
so the request is issued in a state whose `m_peer_count` is 2; (2) after `main` and a
first connection have found a flash access pending, and a second connection has
arrived, a flash completion event makes `on_sys_evt` issue the request with
`m_peer_count` at 2 before and after; (3) after `main` has found a flash access
pending, a connection handled with none pending issues the request with
`m_memory_access_in_progress` still set. -/
theorem scan_start_request_at_max_or_flagged :
    MAX_PEER_COUNT Sdk.sample = 2 ∧
    ((run Sdk.sample (main Sdk.sample Env.quiet 4)
        [Input.dmEvent Env.quiet 5 .DM_EVT_CONNECTION 1,
         Input.dmEvent Env.quiet 6 .DM_EVT_CONNECTION 2]).m_peer_count = 2 ∧
      step Sdk.sample
        (run Sdk.sample (main Sdk.sample Env.quiet 4)
          [Input.dmEvent Env.quiet 5 .DM_EVT_CONNECTION 1,
           Input.dmEvent Env.quiet 6 .DM_EVT_CONNECTION 2])
        (Input.dmEvent Env.quiet 5 .DM_EVT_DISCONNECTION 1) =
      { scan_start Sdk.sample Env.quiet
          { run Sdk.sample (main Sdk.sample Env.quiet 4)
              [Input.dmEvent Env.quiet 5 .DM_EVT_CONNECTION 1,
               Input.dmEvent Env.quiet 6 .DM_EVT_CONNECTION 2] with
            m_ble_db_discovery := [0, 0, 0, 0]
            calls := (run Sdk.sample (main Sdk.sample Env.quiet 4)
              [Input.dmEvent Env.quiet 5 .DM_EVT_CONNECTION 1,
               Input.dmEvent Env.quiet 6 .DM_EVT_CONNECTION 2]).calls ++
              [.nrf_gpio_pin_clear .CONNECTED_LED_PIN_NO] } with
        m_peer_count := 1 } ∧
      (scan_start Sdk.sample Env.quiet
          { run Sdk.sample (main Sdk.sample Env.quiet 4)
              [Input.dmEvent Env.quiet 5 .DM_EVT_CONNECTION 1,
               Input.dmEvent Env.quiet 6 .DM_EVT_CONNECTION 2] with
            m_ble_db_discovery := [0, 0, 0, 0]
            calls := (run Sdk.sample (main Sdk.sample Env.quiet 4)
              [Input.dmEvent Env.quiet 5 .DM_EVT_CONNECTION 1,
               Input.dmEvent Env.quiet 6 .DM_EVT_CONNECTION 2]).calls ++
              [.nrf_gpio_pin_clear .CONNECTED_LED_PIN_NO] }).m_peer_count = 2 ∧
      scanStarts (step Sdk.sample
        (run Sdk.sample (main Sdk.sample Env.quiet 4)
          [Input.dmEvent Env.quiet 5 .DM_EVT_CONNECTION 1,
           Input.dmEvent Env.quiet 6 .DM_EVT_CONNECTION 2])
        (Input.dmEvent Env.quiet 5 .DM_EVT_DISCONNECTION 1)).calls =
      scanStarts (run Sdk.sample (main Sdk.sample Env.quiet 4)
          [Input.dmEvent Env.quiet 5 .DM_EVT_CONNECTION 1,
           Input.dmEvent Env.quiet 6 .DM_EVT_CONNECTION 2]).calls + 1) ∧
    ((run Sdk.sample (main Sdk.sample Env.busy 4)
        [Input.dmEvent Env.busy 5 .DM_EVT_CONNECTION 1,
         Input.dmEvent Env.quiet 6 .DM_EVT_CONNECTION 2]).m_peer_count = 2 ∧
      scanStarts (run Sdk.sample (main Sdk.sample Env.busy 4)
        [Input.dmEvent Env.busy 5 .DM_EVT_CONNECTION 1,
         Input.dmEvent Env.quiet 6 .DM_EVT_CONNECTION 2]).calls = 0 ∧
      scanStarts (run Sdk.sample (main Sdk.sample Env.busy 4)
        [Input.dmEvent Env.busy 5 .DM_EVT_CONNECTION 1,
         Input.dmEvent Env.quiet 6 .DM_EVT_CONNECTION 2,
         Input.sysEvent Env.quiet .NRF_EVT_FLASH_OPERATION_SUCCESS]).calls = 1 ∧
      (run Sdk.sample (main Sdk.sample Env.busy 4)
        [Input.dmEvent Env.busy 5 .DM_EVT_CONNECTION 1,
         Input.dmEvent Env.quiet 6 .DM_EVT_CONNECTION 2,
         Input.sysEvent Env.quiet .NRF_EVT_FLASH_OPERATION_SUCCESS]).m_peer_count = 2) ∧
    ((main Sdk.sample Env.busy 4).m_memory_access_in_progress = true ∧
      scanStarts (main Sdk.sample Env.busy 4).calls = 0 ∧
      scanStarts (step Sdk.sample (main Sdk.sample Env.busy 4)
        (Input.dmEvent Env.quiet 5 .DM_EVT_CONNECTION 1)).calls = 1 ∧
      (step Sdk.sample (main Sdk.sample Env.busy 4)
        (Input.dmEvent Env.quiet 5 .DM_EVT_CONNECTION 1)).m_memory_access_in_progress =
        true) := by
  decide

/-- C4, amended: in every state reachable through the handlers and `scan_start`,
whenever a scan start request is issued, `pstorage_access_status_get` has just
reported with success that no flash access is pending (count 0); when the request is
issued by `device_manager_event_handler` and the handler returns, `m_peer_count` is
then below `MAX_PEER_COUNT` (taken to be at least 1); when it is issued by
`on_sys_evt`, `m_memory_access_in_progress` is false. The request of `main` is issued
with `m_peer_count = 0` and the flag false. -/
theorem scan_start_request_conditions (K : Sdk) (db_len : Nat) :
    (∀ env, scanStarts (main K env db_len).calls ≠ 0 →
      env.pstorage_access_status_get = (K.NRF_SUCCESS, 0) ∧
      (main K env db_len).m_peer_count = 0 ∧
      (main K env db_len).m_memory_access_in_progress = false) ∧
    (∀ s, Reachable K db_len s → ∀ i : Input,
      scanStarts (step K s i).calls ≠ scanStarts s.calls →
      i.env.pstorage_access_status_get = (K.NRF_SUCCESS, 0) ∧
      (∀ p_handle p_event event_result, i.event = .dm p_handle p_event event_result →
        0 < MAX_PEER_COUNT K → (step K s i).fault = none →
        (step K s i).m_peer_count < MAX_PEER_COUNT K) ∧
      (∀ sys_evt, i.event = .sys sys_evt →
        (step K s i).m_memory_access_in_progress = false)) := by
  constructor
  · intro env h
    have hreq := scan_start_request K env (App.initial db_len) 0 rfl h
    refine ⟨hreq, main_peer_count K env db_len, ?_⟩
    rw [main, scan_start_flag K env _ (by rw [hreq])]
    rfl
  · intro s hs i h
    have hlt := hs.peer_count_lt
    by_cases hf : s.fault.isSome = true
    · exact absurd (by simp [step, hf]) h
    · cases hev : i.event with
      | dm p_handle p_event event_result =>
        have hstep : step K s i =
            device_manager_event_handler K i.env p_handle p_event event_result s := by
          simp [step, hf, hev]
        rw [hstep] at h ⊢
        have hreq := device_manager_event_handler_request K i.env p_handle p_event
          event_result s hlt h
        refine ⟨hreq.1, ?_, ?_⟩
        · intro p_handle2 p_event2 event_result2 heq hpos hnone
          exact hreq.2 hpos hnone
        · intro sys_evt heq
          cases heq
      | ble e =>
        have hstep : step K s i = on_ble_evt K i.env i.mem e s := by
          simp [step, hf, hev]
        rw [hstep] at h ⊢
        refine ⟨on_ble_evt_request K i.env i.mem e s h, ?_, ?_⟩
        · intro p_handle p_event event_result heq
          cases heq
        · intro sys_evt heq
          cases heq
      | sys e =>
        have hstep : step K s i = on_sys_evt K i.env e s := by
          simp [step, hf, hev]
        rw [hstep] at h ⊢
        have hreq := on_sys_evt_request K i.env e s h
        refine ⟨hreq.1, ?_, ?_⟩
        · intro p_handle p_event event_result heq
          cases heq
        · intro sys_evt _
          exact hreq.2

/-- C4, amended, at the disconnection that follows two connections: the request is
issued with no flash access pending and the handler returns with one peer. -/
theorem scan_start_request_conditions_witness :
    Env.quiet.pstorage_access_status_get = (Sdk.sample.NRF_SUCCESS, 0) ∧
    (step Sdk.sample
      (run Sdk.sample (main Sdk.sample Env.quiet 4)
        [Input.dmEvent Env.quiet 5 .DM_EVT_CONNECTION 1,
         Input.dmEvent Env.quiet 6 .DM_EVT_CONNECTION 2])
      (Input.dmEvent Env.quiet 5 .DM_EVT_DISCONNECTION 1)).m_peer_count <
      MAX_PEER_COUNT Sdk.sample :=
  ⟨((scan_start_request_conditions Sdk.sample 4).2 _
      ⟨Env.quiet, [Input.dmEvent Env.quiet 5 .DM_EVT_CONNECTION 1,
        Input.dmEvent Env.quiet 6 .DM_EVT_CONNECTION 2], rfl⟩
      (Input.dmEvent Env.quiet 5 .DM_EVT_DISCONNECTION 1) (by decide)).1,
   ((scan_start_request_conditions Sdk.sample 4).2 _
      ⟨Env.quiet, [Input.dmEvent Env.quiet 5 .DM_EVT_CONNECTION 1,
        Input.dmEvent Env.quiet 6 .DM_EVT_CONNECTION 2], rfl⟩
      (Input.dmEvent Env.quiet 5 .DM_EVT_DISCONNECTION 1) (by decide)).2.1 5
      { event_id := .DM_EVT_DISCONNECTION, conn_handle := 1 } 0 rfl (by decide) (by decide)⟩

/-! ## Lemmas for connections, failures and the dispatcher -/

theorem scan_start_dm_device_handle (K : Sdk) (env : Env) (s : App) :
    (scan_start K env s).m_dm_device_handle = s.m_dm_device_handle := by
  simp only [scan_start, APP_ERROR_CHECK, app_error_handler, App.call]
  split_ifs <;> rfl

/-- The calls of `scan_start` come behind the calls made before it. -/
theorem scan_start_calls (K : Sdk) (env : Env) (s : App) :
    ∃ rest, (scan_start K env s).calls = s.calls ++ rest := by
  simp only [scan_start, APP_ERROR_CHECK, app_error_handler, App.call]
  split_ifs <;> simp only [List.append_assoc] <;> exact ⟨_, rfl⟩

/-! ## Properties of a connection -/

/-- C11: on a `DM_EVT_CONNECTION` event whose `ble_db_discovery_start` succeeds,
`device_manager_event_handler` records the handle of the event in `m_dm_device_handle`,
starts service discovery on the connection handle of the event, increments the 8-bit
`m_peer_count` by one, and calls `scan_start`, once, exactly when the incremented count
is below `MAX_PEER_COUNT`. -/
theorem connection_records_discovers_counts_rescans (K : Sdk) (env : Env)
    (p_handle : dm_handle_t) (p_event : dm_event_t) (event_result : Nat) (s : App)
    (hev : p_event.event_id = .DM_EVT_CONNECTION)
    (hdisc : env.ble_db_discovery_start.1 = K.NRF_SUCCESS) :
    (device_manager_event_handler K env p_handle p_event event_result s).m_dm_device_handle =
      p_handle ∧
    (∃ rest,
      (device_manager_event_handler K env p_handle p_event event_result s).calls =
        s.calls ++
          [.nrf_gpio_pin_set .CONNECTED_LED_PIN_NO,
           .ble_db_discovery_start p_event.conn_handle] ++ rest) ∧
    (device_manager_event_handler K env p_handle p_event event_result s).m_peer_count =
      (s.m_peer_count + 1) % 256 ∧
    (s.m_peer_count < 255 →
      (device_manager_event_handler K env p_handle p_event event_result s).m_peer_count =
        s.m_peer_count + 1) ∧
    scanStartCalls (device_manager_event_handler K env p_handle p_event event_result s).calls =
      scanStartCalls s.calls +
        (if (s.m_peer_count + 1) % 256 < MAX_PEER_COUNT K then 1 else 0) := by
  have hr : device_manager_event_handler K env p_handle p_event event_result s =
      if (s.m_peer_count + 1) % 256 < MAX_PEER_COUNT K then
        scan_start K env
          { s with
            m_dm_device_handle := p_handle
            m_ble_db_discovery := env.ble_db_discovery_start.2
            m_peer_count := (s.m_peer_count + 1) % 256
            calls := s.calls ++
              [.nrf_gpio_pin_set .CONNECTED_LED_PIN_NO,
               .ble_db_discovery_start p_event.conn_handle] }
      else
        { s with
          m_dm_device_handle := p_handle
          m_ble_db_discovery := env.ble_db_discovery_start.2
          m_peer_count := (s.m_peer_count + 1) % 256
          calls := s.calls ++
            [.nrf_gpio_pin_set .CONNECTED_LED_PIN_NO,
             .ble_db_discovery_start p_event.conn_handle] } := by
    simp [device_manager_event_handler, hev, APP_ERROR_CHECK, hdisc, App.call]
  rw [hr]
  have hmod : s.m_peer_count < 255 → (s.m_peer_count + 1) % 256 = s.m_peer_count + 1 := by
    intro h
    omega
  split_ifs with hlt
  · refine ⟨by rw [scan_start_dm_device_handle], ?_, by rw [scan_start_peer_count], ?_, ?_⟩
    · obtain ⟨rest, hrest⟩ := scan_start_calls K env
        { s with
          m_dm_device_handle := p_handle
          m_ble_db_discovery := env.ble_db_discovery_start.2
          m_peer_count := (s.m_peer_count + 1) % 256
          calls := s.calls ++
            [.nrf_gpio_pin_set .CONNECTED_LED_PIN_NO,
             .ble_db_discovery_start p_event.conn_handle] }
      exact ⟨rest, hrest⟩
    · intro h
      rw [scan_start_peer_count]
      exact hmod h
    · rw [scan_start_scanStartCalls]
      simp [scanStartCalls_append, scanStartCalls]
  · refine ⟨rfl, ⟨[], by simp⟩, rfl, hmod, ?_⟩
    simp [scanStartCalls_append, scanStartCalls]

/-- C11, at a first connection with room for two peers, and at the second one. -/
theorem connection_records_discovers_counts_rescans_witness :
    ((device_manager_event_handler Sdk.sample Env.quiet 5
        { event_id := .DM_EVT_CONNECTION, conn_handle := 9 } 0
        (main Sdk.sample Env.quiet 4)).m_dm_device_handle = 5 ∧
      (device_manager_event_handler Sdk.sample Env.quiet 5
        { event_id := .DM_EVT_CONNECTION, conn_handle := 9 } 0
        (main Sdk.sample Env.quiet 4)).m_peer_count = 1 ∧
      scanStartCalls (device_manager_event_handler Sdk.sample Env.quiet 5
        { event_id := .DM_EVT_CONNECTION, conn_handle := 9 } 0
        (main Sdk.sample Env.quiet 4)).calls = 1 + 1) ∧
    scanStartCalls (device_manager_event_handler Sdk.sample Env.quiet 6
      { event_id := .DM_EVT_CONNECTION, conn_handle := 10 } 0
      { App.initial 4 with m_peer_count := 1 }).calls = 0 + 0 :=
  ⟨⟨(connection_records_discovers_counts_rescans Sdk.sample Env.quiet 5
        { event_id := .DM_EVT_CONNECTION, conn_handle := 9 } 0
        (main Sdk.sample Env.quiet 4) rfl rfl).1,
    (connection_records_discovers_counts_rescans Sdk.sample Env.quiet 5
        { event_id := .DM_EVT_CONNECTION, conn_handle := 9 } 0
        (main Sdk.sample Env.quiet 4) rfl rfl).2.2.1,
    (connection_records_discovers_counts_rescans Sdk.sample Env.quiet 5
        { event_id := .DM_EVT_CONNECTION, conn_handle := 9 } 0
        (main Sdk.sample Env.quiet 4) rfl rfl).2.2.2.2⟩,
   (connection_records_discovers_counts_rescans Sdk.sample Env.quiet 6
      { event_id := .DM_EVT_CONNECTION, conn_handle := 10 } 0
      { App.initial 4 with m_peer_count := 1 } rfl rfl).2.2.2.2⟩

/-! ## Properties of failed requests -/

theorem adv_report_parse_isSome (K : Sdk) (mem : Mem) (t : Nat) (adv : data_t)
    (td : data_t) (hlt : adv.data_len < 65536) :
    (adv_report_parse K mem t adv td).isSome = true :=
  adv_report_parse_loop_isSome K mem t adv td hlt _ 0 (by omega)

theorem adv_report_uuid128_isSome (K : Sdk) (mem : Mem) (adv : data_t) (td : data_t)
    (hlt : adv.data_len < 65536) : (adv_report_uuid128 K mem adv td).isSome = true := by
  unfold adv_report_uuid128
  have h1 := adv_report_parse_isSome K mem
    K.BLE_GAP_AD_TYPE_128BIT_SERVICE_UUID_MORE_AVAILABLE adv td hlt
  cases hp : adv_report_parse K mem K.BLE_GAP_AD_TYPE_128BIT_SERVICE_UUID_MORE_AVAILABLE
      adv td with
  | none => rw [hp] at h1; cases h1
  | some r =>
    obtain ⟨err_code, type_data⟩ := r
    simp only
    split_ifs
    · exact adv_report_parse_isSome K mem _ adv type_data hlt
    · rfl

/-- C12, as stated, fails for the scan start request: `scan_start` hands the return
code of `sd_ble_gap_scan_start` to `APP_ERROR_CHECK` (line 735). When the request of
`main` returns the failure code 1, the application is in `app_error_handler` with that
code after one request, and an advertisement report with the target UUID that arrives
afterwards is not handled, while the same report makes a running application
connect. -/
theorem scan_start_failure_is_fatal :
    (main Sdk.sample { Env.quiet with sd_ble_gap_scan_start := 1 } 4).fault = some 1 ∧
    scanStarts (main Sdk.sample { Env.quiet with sd_ble_gap_scan_start := 1 } 4).calls = 1 ∧
    run Sdk.sample (main Sdk.sample { Env.quiet with sd_ble_gap_scan_start := 1 } 4)
        [{ env := Env.quiet, mem := memOf 0x2000 (adBytes [AdField.mk 6 nus_service_uuid]),
           event := .ble (.BLE_GAP_EVT_ADV_REPORT 77 0x2000 18) }] =
      main Sdk.sample { Env.quiet with sd_ble_gap_scan_start := 1 } 4 ∧
    run Sdk.sample (main Sdk.sample Env.quiet 4)
        [{ env := Env.quiet, mem := memOf 0x2000 (adBytes [AdField.mk 6 nus_service_uuid]),
           event := .ble (.BLE_GAP_EVT_ADV_REPORT 77 0x2000 18) }] ≠
      main Sdk.sample Env.quiet 4 := by
  decide

/-- C12, amended: when `sd_ble_gap_scan_stop` or `sd_ble_gap_connect` returns a failure
code the application does not enter the fatal-error handler: on an advertisement
report `on_ble_evt` returns the state it would return on success, with the fault field
as it found it, after at most one scan stop and one connect request, so later events
are handled. When `sd_ble_gap_scan_start` returns a failure code, `scan_start` enters
`app_error_handler` with that code after its one request, and no later event is
handled. -/
theorem request_failure_handling (K : Sdk) (env : Env) (mem : Mem)
    (peer_addr data dlen : Nat) (s : App) :
    ((on_ble_evt K env mem (.BLE_GAP_EVT_ADV_REPORT peer_addr data dlen) s).fault = s.fault ∧
      (∀ stop_code connect_code,
        on_ble_evt K
            { env with sd_ble_gap_scan_stop := stop_code, sd_ble_gap_connect := connect_code }
            mem (.BLE_GAP_EVT_ADV_REPORT peer_addr data dlen) s =
          on_ble_evt K env mem (.BLE_GAP_EVT_ADV_REPORT peer_addr data dlen) s) ∧
      ((on_ble_evt K env mem (.BLE_GAP_EVT_ADV_REPORT peer_addr data dlen) s).calls =
          s.calls ∨
        (on_ble_evt K env mem (.BLE_GAP_EVT_ADV_REPORT peer_addr data dlen) s).calls =
          s.calls ++
            [.sd_ble_gap_scan_stop, .nrf_gpio_pin_clear .SCAN_LED_PIN_NO,
             .sd_ble_gap_connect peer_addr { s.m_scan_param with selective := 0 }])) ∧
    (env.pstorage_access_status_get = (K.NRF_SUCCESS, 0) →
      env.dm_whitelist_create.1 = K.NRF_SUCCESS →
      env.sd_ble_gap_scan_start ≠ K.NRF_SUCCESS →
      (scan_start K env s).fault = some env.sd_ble_gap_scan_start ∧
      scanStarts (scan_start K env s).calls = scanStarts s.calls + 1 ∧
      ∀ i, step K (scan_start K env s) i = scan_start K env s) := by
  constructor
  · have hlt : ({ p_data := data, data_len := dlen % 65536 } : data_t).data_len < 65536 :=
      Nat.mod_lt _ (by norm_num)
    have hsome := adv_report_uuid128_isSome K mem
      { p_data := data, data_len := dlen % 65536 } env.type_data hlt
    cases hu : adv_report_uuid128 K mem { p_data := data, data_len := dlen % 65536 }
        env.type_data with
    | none => rw [hu] at hsome; cases hsome
    | some r =>
      obtain ⟨err_code, type_data⟩ := r
      refine ⟨?_, ?_, ?_⟩
      · simp only [on_ble_evt, hu]
        split_ifs <;> rfl
      · intro stop_code connect_code
        simp only [on_ble_evt, hu]
      · simp only [on_ble_evt, hu]
        split_ifs
        · right
          simp [on_uuid_matched, App.call]
        · left; rfl
        · left; rfl
  · intro hflash hwl hfail
    have herr : env.pstorage_access_status_get.1 = K.NRF_SUCCESS := by rw [hflash]
    have hcount : env.pstorage_access_status_get.2 = 0 := by rw [hflash]
    have hfault : (scan_start K env s).fault = some env.sd_ble_gap_scan_start := by
      simp only [scan_start, APP_ERROR_CHECK, app_error_handler, App.call]
      split_ifs <;> simp_all
    refine ⟨hfault, ?_, ?_⟩
    · rw [scan_start_scanStarts]
      simp [herr, hcount, hwl]
    · intro i
      simp [step, hfault]

/-- C12, amended, at a report with the target UUID while scan stop and connect fail,
and at a scan start that fails. -/
theorem request_failure_handling_witness :
    (on_ble_evt Sdk.sample
        { Env.quiet with sd_ble_gap_scan_stop := 8, sd_ble_gap_connect := 8 }
        (memOf 0x2000 (adBytes [AdField.mk 6 nus_service_uuid]))
        (.BLE_GAP_EVT_ADV_REPORT 77 0x2000 18) (App.initial 4)).fault =
      (App.initial 4).fault ∧
    ((scan_start Sdk.sample { Env.quiet with sd_ble_gap_scan_start := 8 }
        (App.initial 4)).fault =
        some ({ Env.quiet with sd_ble_gap_scan_start := 8 } : Env).sd_ble_gap_scan_start ∧
      scanStarts (scan_start Sdk.sample { Env.quiet with sd_ble_gap_scan_start := 8 }
        (App.initial 4)).calls = scanStarts (App.initial 4).calls + 1 ∧
      ∀ i, step Sdk.sample
          (scan_start Sdk.sample { Env.quiet with sd_ble_gap_scan_start := 8 }
            (App.initial 4)) i =
        scan_start Sdk.sample { Env.quiet with sd_ble_gap_scan_start := 8 }
          (App.initial 4)) :=
  ⟨(request_failure_handling Sdk.sample
      { Env.quiet with sd_ble_gap_scan_stop := 8, sd_ble_gap_connect := 8 }
      (memOf 0x2000 (adBytes [AdField.mk 6 nus_service_uuid])) 77 0x2000 18
      (App.initial 4)).1.1,
   (request_failure_handling Sdk.sample { Env.quiet with sd_ble_gap_scan_start := 8 }
      (memOf 0x2000 []) 77 0x2000 0 (App.initial 4)).2 (by decide) (by decide)
      (by decide)⟩

/-! ## Properties of the dispatcher -/

theorem forwards_append (a b : List Call) : forwards (a ++ b) = forwards a ++ forwards b := by
  simp [forwards, List.filter_append]

theorem scan_start_forwards (K : Sdk) (env : Env) (s : App) :
    forwards (scan_start K env s).calls = forwards s.calls := by
  simp only [scan_start, APP_ERROR_CHECK, app_error_handler, App.call]
  split_ifs <;> simp [forwards_append, forwards]

theorem device_manager_event_handler_forwards (K : Sdk) (env : Env)
    (p_handle : dm_handle_t) (p_event : dm_event_t) (event_result : Nat) (s : App) :
    forwards (device_manager_event_handler K env p_handle p_event event_result s).calls =
      forwards s.calls := by
  obtain ⟨id, conn_handle⟩ := p_event
  cases id <;>
    simp only [device_manager_event_handler, APP_ERROR_CHECK, app_error_handler, App.call,
      App.andThen] <;>
    (try split_ifs) <;>
    (try simp only [scan_start_forwards, forwards_append]) <;>
    simp [forwards]

theorem uart_c_evt_handler_forwards (K : Sdk) (env : Env) (t : uart_c_evt_type) (s : App) :
    forwards (uart_c_evt_handler K env t s).calls = forwards s.calls := by
  cases t
  · simp only [uart_c_evt_handler, APP_ERROR_CHECK, app_error_handler, App.call]
    split_ifs <;> simp [forwards_append, forwards]
  · rfl
  · rfl

theorem on_ble_evt_forwards (K : Sdk) (env : Env) (mem : Mem) (e : ble_evt_t) (s : App) :
    forwards (on_ble_evt K env mem e s).calls = forwards s.calls := by
  cases e with
  | BLE_GAP_EVT_ADV_REPORT peer_addr data dlen =>
    simp only [on_ble_evt]
    split
    · rfl
    · split_ifs <;> simp [on_uuid_matched, App.call, forwards_append, forwards]
  | BLE_GAP_EVT_TIMEOUT src =>
    cases src <;> simp only [on_ble_evt]
    split_ifs
    · rw [scan_start_forwards]
    · rfl
  | BLE_GAP_EVT_CONN_PARAM_UPDATE_REQUEST conn_handle conn_params =>
    simp only [on_ble_evt, APP_ERROR_CHECK, app_error_handler, App.call]
    split_ifs <;> simp [forwards_append, forwards]
  | other evt_id => rfl

theorem callbacks_forwards (K : Sdk) :
    ∀ (cbs : List Callback) (s : App),
      forwards (callbacks K cbs s).calls = forwards s.calls := by
  intro cbs
  induction cbs with
  | nil => intro s; rfl
  | cons cb cbs ih =>
    intro s
    show forwards (callbacks K cbs _).calls = _
    rw [ih]
    dsimp only [App.andThen]
    split_ifs
    · rfl
    · cases cb with
      | device_manager_event_handler env p_handle p_event event_result =>
        exact device_manager_event_handler_forwards K env p_handle p_event event_result s
      | uart_c_evt_handler env evt_type =>
        exact uart_c_evt_handler_forwards K env evt_type s

/-- Callbacks are not made once the application is in `app_error_handler`. -/
theorem callbacks_of_fault (K : Sdk) :
    ∀ (cbs : List Callback) (s : App), s.fault.isSome = true → callbacks K cbs s = s := by
  intro cbs
  induction cbs with
  | nil => intro s _; rfl
  | cons cb cbs ih =>
    intro s h
    show callbacks K cbs (s.andThen _) = s
    have hs : s.andThen (fun s =>
        match cb with
        | .device_manager_event_handler env p_handle p_event event_result =>
          device_manager_event_handler K env p_handle p_event event_result s
        | .uart_c_evt_handler env evt_type => uart_c_evt_handler K env evt_type s) = s := by
      simp [App.andThen, h]
    rw [hs]
    exact ih s h

/-- The library handlers that return leave the application running only if it ran
before them. -/
theorem callbacks_fault_none (K : Sdk) (cbs : List Callback) (s : App)
    (h : (callbacks K cbs s).fault = none) : s.fault = none := by
  cases hs : s.fault with
  | none => rfl
  | some e =>
    rw [callbacks_of_fault K cbs s (by rw [hs]; rfl), hs] at h
    cases h

/-- C13: `ble_evt_dispatch` forwards the event it is given to `dm_ble_evt_handler`, to
`ble_db_discovery_on_ble_evt`, to `ble_uart_c_on_ble_evt` and then to `on_ble_evt`, in
this order and each exactly once. With `s1`, `s2`, `s3` the states after the first,
second and third library handler (each made of the forwarding call and the callbacks
that handler makes into `main.c`): the forwarding calls made up to each of them are
the first one, two and three of the list, with the same event; where the three library
handlers return, the dispatch is one run of `on_ble_evt` on that event from `s3`,
whether or not `on_ble_evt` itself returns; where one of them does not return, the
dispatch stops in it; and when the library handlers make no callback, the dispatch is
`on_ble_evt` run once on the state that has exactly the three forwarding calls
added. -/
theorem ble_evt_dispatch_forwards_in_order (K : Sdk) (env : Env) (mem : Mem)
    (lib : Library) (p_ble_evt : ble_evt_t) (s s1 s2 s3 : App)
    (e1 : s1 = callbacks K lib.dm_ble_evt_handler (s.call (.dm_ble_evt_handler p_ble_evt)))
    (e2 : s2 = callbacks K lib.ble_db_discovery_on_ble_evt
      { s1.call (.ble_db_discovery_on_ble_evt p_ble_evt) with
        m_ble_db_discovery := lib.m_ble_db_discovery })
    (e3 : s3 = callbacks K lib.ble_uart_c_on_ble_evt
      (s2.call (.ble_uart_c_on_ble_evt p_ble_evt))) :
    (forwards s1.calls = forwards s.calls ++ [.dm_ble_evt_handler p_ble_evt] ∧
      forwards s2.calls =
        forwards s.calls ++
          [.dm_ble_evt_handler p_ble_evt, .ble_db_discovery_on_ble_evt p_ble_evt] ∧
      forwards s3.calls =
        forwards s.calls ++
          [.dm_ble_evt_handler p_ble_evt, .ble_db_discovery_on_ble_evt p_ble_evt,
           .ble_uart_c_on_ble_evt p_ble_evt]) ∧
    (s3.fault = none →
      ble_evt_dispatch K env mem lib p_ble_evt s = on_ble_evt K env mem p_ble_evt s3 ∧
      forwards (ble_evt_dispatch K env mem lib p_ble_evt s).calls =
        forwards s.calls ++
          [.dm_ble_evt_handler p_ble_evt, .ble_db_discovery_on_ble_evt p_ble_evt,
           .ble_uart_c_on_ble_evt p_ble_evt]) ∧
    (s3.fault ≠ none →
      ble_evt_dispatch K env mem lib p_ble_evt s =
        if s1.fault.isSome then s1 else if s2.fault.isSome then s2 else s3) ∧
    (lib.dm_ble_evt_handler = [] → lib.ble_db_discovery_on_ble_evt = [] →
      lib.ble_uart_c_on_ble_evt = [] → s.fault = none →
      ble_evt_dispatch K env mem lib p_ble_evt s =
        on_ble_evt K env mem p_ble_evt
          { s with
            m_ble_db_discovery := lib.m_ble_db_discovery
            calls := s.calls ++
              [.dm_ble_evt_handler p_ble_evt, .ble_db_discovery_on_ble_evt p_ble_evt,
               .ble_uart_c_on_ble_evt p_ble_evt] }) := by
  have hnone : ∀ t : App, ¬ t.fault.isSome = true → t.fault = none := by
    intro t h
    cases ht : t.fault with
    | none => rfl
    | some e => rw [ht] at h; exact absurd rfl h
  have hsome : ∀ t : App, t.fault = none → ¬ t.fault.isSome = true := by
    intro t h0 h
    rw [h0] at h
    cases h
  have hd : ble_evt_dispatch K env mem lib p_ble_evt s =
      (if s1.fault.isSome then s1
       else if s2.fault.isSome then s2
       else if s3.fault.isSome then s3
       else on_ble_evt K env mem p_ble_evt s3) := by
    subst e3 e2 e1
    rfl
  have f1 : forwards s1.calls = forwards s.calls ++ [.dm_ble_evt_handler p_ble_evt] := by
    rw [e1, callbacks_forwards]
    simp only [App.call, forwards_append]
    simp [forwards]
  have f2 : forwards s2.calls =
      forwards s1.calls ++ [.ble_db_discovery_on_ble_evt p_ble_evt] := by
    rw [e2, callbacks_forwards]
    simp only [App.call, forwards_append]
    simp [forwards]
  have f3 : forwards s3.calls =
      forwards s2.calls ++ [.ble_uart_c_on_ble_evt p_ble_evt] := by
    rw [e3, callbacks_forwards]
    simp only [App.call, forwards_append]
    simp [forwards]
  rw [f1, List.append_assoc] at f2
  rw [f2, List.append_assoc] at f3
  have hrun : s3.fault = none → s2.fault = none ∧ s1.fault = none := by
    intro h3
    have h2 : s2.fault = none := by
      rw [e3] at h3
      exact callbacks_fault_none K _ (s2.call _) h3
    refine ⟨h2, ?_⟩
    rw [e2] at h2
    exact callbacks_fault_none K _
      { s1.call (.ble_db_discovery_on_ble_evt p_ble_evt) with
        m_ble_db_discovery := lib.m_ble_db_discovery } h2
  refine ⟨⟨f1, f2, f3⟩, ?_, ?_, ?_⟩
  · intro h3
    obtain ⟨h2, h1⟩ := hrun h3
    have hr : ble_evt_dispatch K env mem lib p_ble_evt s =
        on_ble_evt K env mem p_ble_evt s3 := by
      rw [hd, if_neg (hsome _ h1), if_neg (hsome _ h2), if_neg (hsome _ h3)]
    refine ⟨hr, ?_⟩
    rw [hr, on_ble_evt_forwards]
    exact f3
  · intro h3
    rw [hd]
    have h3s : s3.fault.isSome = true := by
      cases hs : s3.fault with
      | none => exact absurd hs h3
      | some e => rfl
    rw [if_pos h3s]
  · intro l1 l2 l3 hs
    have hs1 : s1 = s.call (.dm_ble_evt_handler p_ble_evt) := by
      rw [e1, l1]
      rfl
    have hs2 : s2 =
        { s1.call (.ble_db_discovery_on_ble_evt p_ble_evt) with
          m_ble_db_discovery := lib.m_ble_db_discovery } := by
      rw [e2, l2]
      rfl
    have hs3 : s3 = s2.call (.ble_uart_c_on_ble_evt p_ble_evt) := by
      rw [e3, l3]
      rfl
    have hs3e : s3 =
        { s with
          m_ble_db_discovery := lib.m_ble_db_discovery
          calls := s.calls ++
            [.dm_ble_evt_handler p_ble_evt, .ble_db_discovery_on_ble_evt p_ble_evt,
             .ble_uart_c_on_ble_evt p_ble_evt] } := by
      rw [hs3, hs2, hs1]
      simp [App.call]
    have h3 : s3.fault = none := by
      rw [hs3e]
      exact hs
    obtain ⟨h2, h1⟩ := hrun h3
    rw [hd, if_neg (hsome _ h1), if_neg (hsome _ h2), if_neg (hsome _ h3), hs3e]

/-- C13, at an advertisement report with the target UUID, during which the device
manager calls back with a security request and the UART client with a notification:
the calls added are the three forwardings in order, the call of the callback in its
place, and the calls of one run of `on_ble_evt`, with one connect request. And at a
connection parameter request whose update fails: all four handlers have run, and
`on_ble_evt` has ended in `app_error_handler`. -/
theorem ble_evt_dispatch_forwards_in_order_witness :
    (ble_evt_dispatch Sdk.sample Env.quiet
        (memOf 0x2000 (adBytes [AdField.mk 6 nus_service_uuid]))
        { dm_ble_evt_handler :=
            [.device_manager_event_handler Env.quiet 5
              { event_id := .DM_EVT_SECURITY_SETUP, conn_handle := 9 } 0]
          m_ble_db_discovery := [1, 0, 0, 9]
          ble_db_discovery_on_ble_evt := []
          ble_uart_c_on_ble_evt :=
            [.uart_c_evt_handler Env.quiet .BLE_UART_C_EVT_HRM_NOTIFICATION] }
        (.BLE_GAP_EVT_ADV_REPORT 77 0x2000 18) (App.initial 4) =
      on_ble_evt Sdk.sample Env.quiet
        (memOf 0x2000 (adBytes [AdField.mk 6 nus_service_uuid]))
        (.BLE_GAP_EVT_ADV_REPORT 77 0x2000 18)
        { App.initial 4 with
          m_ble_db_discovery := [1, 0, 0, 9]
          calls :=
            [.dm_ble_evt_handler (.BLE_GAP_EVT_ADV_REPORT 77 0x2000 18),
             .dm_security_setup_req 0,
             .ble_db_discovery_on_ble_evt (.BLE_GAP_EVT_ADV_REPORT 77 0x2000 18),
             .ble_uart_c_on_ble_evt (.BLE_GAP_EVT_ADV_REPORT 77 0x2000 18)] }) ∧
    (ble_evt_dispatch Sdk.sample Env.quiet
        (memOf 0x2000 (adBytes [AdField.mk 6 nus_service_uuid]))
        { dm_ble_evt_handler :=
            [.device_manager_event_handler Env.quiet 5
              { event_id := .DM_EVT_SECURITY_SETUP, conn_handle := 9 } 0]
          m_ble_db_discovery := [1, 0, 0, 9]
          ble_db_discovery_on_ble_evt := []
          ble_uart_c_on_ble_evt :=
            [.uart_c_evt_handler Env.quiet .BLE_UART_C_EVT_HRM_NOTIFICATION] }
        (.BLE_GAP_EVT_ADV_REPORT 77 0x2000 18) (App.initial 4)).calls =
      [.dm_ble_evt_handler (.BLE_GAP_EVT_ADV_REPORT 77 0x2000 18),
       .dm_security_setup_req 0,
       .ble_db_discovery_on_ble_evt (.BLE_GAP_EVT_ADV_REPORT 77 0x2000 18),
       .ble_uart_c_on_ble_evt (.BLE_GAP_EVT_ADV_REPORT 77 0x2000 18),
       .sd_ble_gap_scan_stop, .nrf_gpio_pin_clear .SCAN_LED_PIN_NO,
       .sd_ble_gap_connect 77
         { active := 0, selective := 0, p_whitelist := none, interval := 0, window := 0,
           timeout := 0 }] ∧
    (ble_evt_dispatch Sdk.sample { Env.quiet with sd_ble_gap_conn_param_update := 8 }
        (memOf 0 []) (Library.silent [1, 0, 0, 9])
        (.BLE_GAP_EVT_CONN_PARAM_UPDATE_REQUEST 3 4) (App.initial 4) =
      on_ble_evt Sdk.sample { Env.quiet with sd_ble_gap_conn_param_update := 8 }
        (memOf 0 []) (.BLE_GAP_EVT_CONN_PARAM_UPDATE_REQUEST 3 4)
        { App.initial 4 with
          m_ble_db_discovery := (Library.silent [1, 0, 0, 9]).m_ble_db_discovery
          calls := (App.initial 4).calls ++
            [.dm_ble_evt_handler (.BLE_GAP_EVT_CONN_PARAM_UPDATE_REQUEST 3 4),
             .ble_db_discovery_on_ble_evt (.BLE_GAP_EVT_CONN_PARAM_UPDATE_REQUEST 3 4),
             .ble_uart_c_on_ble_evt (.BLE_GAP_EVT_CONN_PARAM_UPDATE_REQUEST 3 4)] }) ∧
    (ble_evt_dispatch Sdk.sample { Env.quiet with sd_ble_gap_conn_param_update := 8 }
        (memOf 0 []) (Library.silent [1, 0, 0, 9])
        (.BLE_GAP_EVT_CONN_PARAM_UPDATE_REQUEST 3 4) (App.initial 4)).fault = some 8 :=
  ⟨((ble_evt_dispatch_forwards_in_order Sdk.sample Env.quiet
      (memOf 0x2000 (adBytes [AdField.mk 6 nus_service_uuid]))
      { dm_ble_evt_handler :=
          [.device_manager_event_handler Env.quiet 5
            { event_id := .DM_EVT_SECURITY_SETUP, conn_handle := 9 } 0]
        m_ble_db_discovery := [1, 0, 0, 9]
        ble_db_discovery_on_ble_evt := []
        ble_uart_c_on_ble_evt :=
          [.uart_c_evt_handler Env.quiet .BLE_UART_C_EVT_HRM_NOTIFICATION] }
      (.BLE_GAP_EVT_ADV_REPORT 77 0x2000 18) (App.initial 4) _ _ _ rfl rfl rfl).2.1
      (by decide)).1,
   by decide,
   (ble_evt_dispatch_forwards_in_order Sdk.sample
      { Env.quiet with sd_ble_gap_conn_param_update := 8 } (memOf 0 [])
      (Library.silent [1, 0, 0, 9]) (.BLE_GAP_EVT_CONN_PARAM_UPDATE_REQUEST 3 4)
      (App.initial 4) _ _ _ rfl rfl rfl).2.2.2 rfl rfl rfl rfl,
   by decide⟩

/-! ## Properties of the parser on arbitrary buffers -/

/-- C14: `adv_report_parse` does not check field lengths against the buffer length. A
length byte 0 followed by the requested type gives `NRF_SUCCESS` with `data_len =
65535`; a length byte 9 in a buffer of 3 bytes gives `NRF_SUCCESS` with the extent
`[2, 10)`, beyond `data_len`; and on a buffer of one byte the result depends on the
byte at index 1, which lies outside the buffer, so that byte is read. -/
theorem adv_report_parse_unchecked_lengths (K : Sdk) (mem : Mem) (t : Nat) (adv : data_t)
    (td : data_t) :
    (0 < adv.data_len → mem adv.p_data % 256 = 0 → mem (adv.p_data + 1) % 256 = t % 256 →
      adv_report_parse K mem t adv td =
        some (K.NRF_SUCCESS, { p_data := adv.p_data + 2, data_len := 65535 })) ∧
    (adv_report_parse Sdk.sample (memOf 0x2000 [9, 6, 1]) 6 { p_data := 0x2000, data_len := 3 }
        { p_data := 0, data_len := 0 } =
      some (Sdk.sample.NRF_SUCCESS, { p_data := 0x2000 + 2, data_len := 8 }) ∧ 3 < 2 + 8) ∧
    ((∀ k, k < 1 → memOf 0x2000 [3, 6] (0x2000 + k) = memOf 0x2000 [3, 9] (0x2000 + k)) ∧
      adv_report_parse Sdk.sample (memOf 0x2000 [3, 6]) 6 { p_data := 0x2000, data_len := 1 }
          { p_data := 0, data_len := 0 } =
        some (Sdk.sample.NRF_SUCCESS, { p_data := 0x2000 + 2, data_len := 2 }) ∧
      adv_report_parse Sdk.sample (memOf 0x2000 [3, 9]) 6 { p_data := 0x2000, data_len := 1 }
          { p_data := 0, data_len := 0 } =
        some (Sdk.sample.NRF_ERROR_NOT_FOUND, { p_data := 0, data_len := 0 })) := by
  refine ⟨?_, by decide, by decide⟩
  intro hpos h0 h1
  rw [adv_report_parse, adv_report_parse_loop, if_pos hpos]
  simp only [Nat.add_zero, Nat.zero_add, h0, h1, if_true]

/-- C14, at a buffer of two bytes: length byte 0, then the requested type 6. -/
theorem adv_report_parse_unchecked_lengths_witness :
    adv_report_parse Sdk.sample (memOf 0x2000 [0, 6]) 6 { p_data := 0x2000, data_len := 2 }
        { p_data := 0, data_len := 0 } =
      some (Sdk.sample.NRF_SUCCESS, { p_data := 0x2000 + 2, data_len := 65535 }) :=
  (adv_report_parse_unchecked_lengths Sdk.sample (memOf 0x2000 [0, 6]) 6
    { p_data := 0x2000, data_len := 2 } { p_data := 0, data_len := 0 }).1
    (by decide) (by decide) (by decide)

/-- The body of the loop runs at most as often as bytes are left in the buffer. -/
theorem adv_report_parse_iterations_le (mem : Mem) (t : Nat) (adv : data_t)
    (hlt : adv.data_len < 65536) :
    ∀ (fuel index : Nat), adv.data_len - index < fuel →
      ∃ n, n ≤ adv.data_len - index ∧
        adv_report_parse_iterations mem t adv fuel index = some n := by
  intro fuel
  induction fuel with
  | zero => intro index h; omega
  | succ m ih =>
    intro index h
    rw [adv_report_parse_iterations]
    by_cases hi : index < adv.data_len
    · rw [if_pos hi]
      simp only
      split
      · exact ⟨1, by omega, rfl⟩
      · have hb : mem (adv.p_data + index) % 256 < 256 := Nat.mod_lt _ (by norm_num)
        have hnext : (index + (mem (adv.p_data + index) % 256 + 1)) % 2 ^ 32 =
            index + (mem (adv.p_data + index) % 256 + 1) := Nat.mod_eq_of_lt (by omega)
        obtain ⟨n, hn, he⟩ := ih ((index + (mem (adv.p_data + index) % 256 + 1)) % 2 ^ 32)
          (by rw [hnext]; omega)
        rw [hnext] at hn
        exact ⟨n + 1, by omega, by rw [he]; rfl⟩
    · rw [if_neg hi]
      exact ⟨0, Nat.zero_le _, rfl⟩

/-- The loop and the count of its rounds stop on the same fuel. -/
theorem adv_report_parse_iterations_isSome (K : Sdk) (mem : Mem) (t : Nat) (adv : data_t)
    (td : data_t) :
    ∀ (fuel index : Nat),
      (adv_report_parse_iterations mem t adv fuel index).isSome =
        (adv_report_parse_loop K mem t adv fuel index td).isSome := by
  intro fuel
  induction fuel with
  | zero => intro index; rfl
  | succ m ih =>
    intro index
    rw [adv_report_parse_iterations, adv_report_parse_loop]
    by_cases hi : index < adv.data_len
    · rw [if_pos hi, if_pos hi]
      simp only
      split_ifs
      · rfl
      · rw [← ih]
        cases adv_report_parse_iterations mem t adv m
          ((index + (mem (adv.p_data + index) % 256 + 1)) % 2 ^ 32) <;> rfl
    · rw [if_neg hi, if_neg hi]
      rfl

/-- C15: for every advertisement buffer and every type, well formed or not, the loop of
`adv_report_parse` terminates: the parser returns a result, a round that does not
return moves `index` strictly forward by `field_length + 1` without wrapping, and the
body runs at most `data_len` times. -/
theorem adv_report_parse_terminates (K : Sdk) (mem : Mem) (t : Nat) (adv : data_t)
    (td : data_t) (hlt : adv.data_len < 65536) :
    (adv_report_parse K mem t adv td).isSome = true ∧
    (∀ index, index < adv.data_len →
      (index + (mem (adv.p_data + index) % 256 + 1)) % 2 ^ 32 =
          index + (mem (adv.p_data + index) % 256 + 1) ∧
        index < (index + (mem (adv.p_data + index) % 256 + 1)) % 2 ^ 32) ∧
    (∃ n, n ≤ adv.data_len ∧
      adv_report_parse_iterations mem t adv (adv.data_len + 1) 0 = some n) ∧
    (∀ fuel index,
      (adv_report_parse_iterations mem t adv fuel index).isSome =
        (adv_report_parse_loop K mem t adv fuel index td).isSome) := by
  refine ⟨adv_report_parse_loop_isSome K mem t adv td hlt _ 0 (by omega), ?_, ?_,
    adv_report_parse_iterations_isSome K mem t adv td⟩
  · intro index hi
    have hb : mem (adv.p_data + index) % 256 < 256 := Nat.mod_lt _ (by norm_num)
    have hnext : (index + (mem (adv.p_data + index) % 256 + 1)) % 2 ^ 32 =
        index + (mem (adv.p_data + index) % 256 + 1) := Nat.mod_eq_of_lt (by omega)
    exact ⟨hnext, by rw [hnext]; omega⟩
  · obtain ⟨n, hn, he⟩ := adv_report_parse_iterations_le mem t adv hlt
      (adv.data_len + 1) 0 (by omega)
    exact ⟨n, by omega, he⟩

/-- C15, at a malformed buffer of five bytes whose fields have the length bytes 0 and
255: the parser returns, after two rounds. -/
theorem adv_report_parse_terminates_witness :
    (adv_report_parse Sdk.sample (memOf 0x2000 [0, 255, 9, 1, 2]) 6
      { p_data := 0x2000, data_len := 5 } { p_data := 0, data_len := 0 }).isSome = true ∧
    adv_report_parse_iterations (memOf 0x2000 [0, 255, 9, 1, 2]) 6
      { p_data := 0x2000, data_len := 5 } (5 + 1) 0 = some 2 :=
  ⟨(adv_report_parse_terminates Sdk.sample (memOf 0x2000 [0, 255, 9, 1, 2]) 6
      { p_data := 0x2000, data_len := 5 } { p_data := 0, data_len := 0 } (by decide)).1,
   by decide⟩

/-! ## The whitelist mode is never entered -/

/-- Calls other than scan start requests keep `GeneralScanOnly`. -/
theorem GeneralScanOnly.append {s r : App} (extra : List Call) (h : GeneralScanOnly s)
    (hm : r.m_scan_mode = s.m_scan_mode) (hc : r.calls = s.calls ++ extra)
    (he : ∀ p, Call.sd_ble_gap_scan_start p ∈ extra → p.general) : GeneralScanOnly r := by
  refine ⟨by rw [hm]; exact h.1, ?_⟩
  intro p hp
  rw [hc, List.mem_append] at hp
  rcases hp with hp | hp
  · exact h.2 p hp
  · exact he p hp

theorem GeneralScanOnly.after_scan_start {s : App} (K : Sdk) (env : Env) (h : GeneralScanOnly s) :
    GeneralScanOnly (scan_start K env s) := by
  have hm := scan_start_scan_mode K env s
  by_cases herr : env.pstorage_access_status_get.1 = K.NRF_SUCCESS
  · by_cases hcount : env.pstorage_access_status_get.2 = 0
    · by_cases hwl : env.dm_whitelist_create.1 = K.NRF_SUCCESS
      · refine h.append _ hm
          (by rw [scan_start_general K env s herr hcount hwl h.1]) ?_
        intro p hp
        simp only [List.mem_cons, List.mem_singleton, List.not_mem_nil, or_false,
          reduceCtorEq, false_or, Call.sd_ble_gap_scan_start.injEq] at hp
        subst hp
        exact ⟨rfl, rfl, rfl⟩
      · refine h.append
          [.pstorage_access_status_get, .dm_whitelist_create,
           .nrf_gpio_pin_set .ASSERT_LED_PIN_NO] hm
          (by simp [BleAppUartC.scan_start, APP_ERROR_CHECK, app_error_handler, App.call,
            herr, hcount, hwl]) ?_
        intro p hp
        simp at hp
    · refine h.append [.pstorage_access_status_get] hm
        (by rw [scan_start_pending K env s herr hcount]) ?_
      intro p hp
      simp at hp
  · refine h.append
      [.pstorage_access_status_get, .nrf_gpio_pin_set .ASSERT_LED_PIN_NO] hm
      (by simp [BleAppUartC.scan_start, APP_ERROR_CHECK, app_error_handler, App.call, herr]) ?_
    intro p hp
    simp at hp

theorem GeneralScanOnly.of_mem {s r : App} (h : GeneralScanOnly s)
    (hm : r.m_scan_mode = s.m_scan_mode)
    (hc : ∀ p, Call.sd_ble_gap_scan_start p ∈ r.calls →
      Call.sd_ble_gap_scan_start p ∈ s.calls) :
    GeneralScanOnly r :=
  ⟨by rw [hm]; exact h.1, fun p hp => h.2 p (hc p hp)⟩

theorem GeneralScanOnly.after_dm_event {s : App} (K : Sdk) (env : Env)
    (p_handle : dm_handle_t) (p_event : dm_event_t) (event_result : Nat)
    (h : GeneralScanOnly s) :
    GeneralScanOnly (device_manager_event_handler K env p_handle p_event event_result s) := by
  obtain ⟨id, conn_handle⟩ := p_event
  cases id with
  | DM_EVT_CONNECTION =>
    simp only [BleAppUartC.device_manager_event_handler, APP_ERROR_CHECK, app_error_handler,
      App.call]
    split_ifs
    · exact h.of_mem (by rfl) (by intro p hp; simpa using hp)
    · apply GeneralScanOnly.after_scan_start
      exact h.of_mem (by rfl) (by intro p hp; simpa using hp)
    · exact h.of_mem (by rfl) (by intro p hp; simpa using hp)
  | DM_EVT_DISCONNECTION =>
    simp only [BleAppUartC.device_manager_event_handler, App.call, App.andThen]
    have h1 : GeneralScanOnly
        { s with
          m_ble_db_discovery := List.replicate s.m_ble_db_discovery.length 0
          calls := s.calls ++ [.nrf_gpio_pin_clear .CONNECTED_LED_PIN_NO] } :=
      h.of_mem (by rfl) (by intro p hp; simpa using hp)
    have h2 := h1.after_scan_start K env
    split_ifs
    · exact h2
    · exact h2
    · exact h1
    · exact h1
  | DM_EVT_SECURITY_SETUP =>
    simp only [BleAppUartC.device_manager_event_handler, APP_ERROR_CHECK, app_error_handler,
      App.call]
    split_ifs
    · exact h.of_mem (by rfl) (by intro p hp; simpa using hp)
    · exact h.of_mem (by rfl) (by intro p hp; simpa using hp)
  | DM_EVT_SECURITY_SETUP_COMPLETE =>
    simp only [BleAppUartC.device_manager_event_handler, APP_ERROR_CHECK, app_error_handler,
      App.call]
    split_ifs
    · exact h.of_mem (by rfl) (by intro p hp; simpa using hp)
    · exact h.of_mem (by rfl) (by intro p hp; simpa using hp)
  | DM_EVT_LINK_SECURED => exact h
  | other id => exact h
  | _ =>
    simp only [BleAppUartC.device_manager_event_handler, APP_ERROR_CHECK, app_error_handler,
      App.call]
    split_ifs
    · exact h.of_mem (by rfl) (by intro p hp; simpa using hp)
    · exact h

theorem GeneralScanOnly.after_ble_evt {s : App} (K : Sdk) (env : Env) (mem : Mem)
    (e : ble_evt_t) (h : GeneralScanOnly s) : GeneralScanOnly (on_ble_evt K env mem e s) := by
  cases e with
  | BLE_GAP_EVT_ADV_REPORT peer_addr data dlen =>
    simp only [BleAppUartC.on_ble_evt]
    split
    · exact h
    · split_ifs
      · exact h.of_mem (by rfl)
          (by intro p hp; simpa [on_uuid_matched, App.call] using hp)
      · exact h
      · exact h
  | BLE_GAP_EVT_TIMEOUT src =>
    cases src with
    | BLE_GAP_TIMEOUT_SRC_SCAN =>
      simp only [BleAppUartC.on_ble_evt]
      split_ifs with hw
      · exact absurd hw h.1
      · exact h
    | _ => exact h
  | BLE_GAP_EVT_CONN_PARAM_UPDATE_REQUEST conn_handle conn_params =>
    simp only [BleAppUartC.on_ble_evt, APP_ERROR_CHECK, app_error_handler, App.call]
    split_ifs
    · exact h.of_mem (by rfl) (by intro p hp; simpa using hp)
    · exact h.of_mem (by rfl) (by intro p hp; simpa using hp)
  | other evt_id => exact h

theorem GeneralScanOnly.after_sys_evt {s : App} (K : Sdk) (env : Env) (e : sys_evt_t)
    (h : GeneralScanOnly s) : GeneralScanOnly (on_sys_evt K env e s) := by
  have h1 : GeneralScanOnly { s with m_memory_access_in_progress := false } := h
  cases e with
  | other evt => exact h
  | _ =>
    simp only [BleAppUartC.on_sys_evt]
    split_ifs
    · exact h1.after_scan_start K env
    · exact h

theorem GeneralScanOnly.after_step {s : App} (K : Sdk) (i : Input) (h : GeneralScanOnly s) :
    GeneralScanOnly (step K s i) := by
  unfold BleAppUartC.step
  split_ifs
  · exact h
  · split
    · exact h.after_dm_event K i.env _ _ _
    · exact h.after_ble_evt K i.env i.mem _
    · exact h.after_sys_evt K i.env _

theorem GeneralScanOnly.after_run (K : Sdk) :
    ∀ (is : List Input) (s : App), GeneralScanOnly s → GeneralScanOnly (run K s is) := by
  intro is
  induction is with
  | nil => intro s h; exact h
  | cons i is ih => intro s h; exact ih _ (h.after_step K i)

theorem GeneralScanOnly.after_main (K : Sdk) (env : Env) (db_len : Nat) :
    GeneralScanOnly (main K env db_len) := by
  apply GeneralScanOnly.after_scan_start
  refine ⟨?_, ?_⟩
  · show (0 : Nat) ≠ BLE_WHITELIST_SCAN
    decide
  · intro p hp
    cases hp

/-- C16: in every state reachable from the initial state (`m_scan_mode` zero, that is
`BLE_NO_SCAN`, and `main` calling `scan_start`) through any sequence of BLE, system and
device-manager events, `m_scan_mode` is not `BLE_WHITELIST_SCAN`, and every scan start
request made has `selective = 0`, no whitelist and timeout 0, whatever the calls to the
vendor stack return, the whitelist of `dm_whitelist_create` included. -/
theorem whitelist_scan_never_entered (K : Sdk) (db_len : Nat) (s : App)
    (h : Reachable K db_len s) :
    s.m_scan_mode ≠ BLE_WHITELIST_SCAN ∧
    ∀ p, Call.sd_ble_gap_scan_start p ∈ s.calls →
      p.selective = 0 ∧ p.p_whitelist = none ∧ p.timeout = 0 := by
  obtain ⟨env, is, rfl⟩ := h
  exact GeneralScanOnly.after_run K is _ (GeneralScanOnly.after_main K env db_len)

/-- C16, at the state after `main`, a connection and a scan timeout, each handled while
`dm_whitelist_create` reports a bonded peer. -/
theorem whitelist_scan_never_entered_witness :
    (run Sdk.sample (main Sdk.sample Env.bonded 4)
      [Input.dmEvent Env.bonded 5 .DM_EVT_CONNECTION 1,
       Input.scanTimeout Env.bonded]).m_scan_mode ≠ BLE_WHITELIST_SCAN ∧
    ∀ p, Call.sd_ble_gap_scan_start p ∈
        (run Sdk.sample (main Sdk.sample Env.bonded 4)
          [Input.dmEvent Env.bonded 5 .DM_EVT_CONNECTION 1,
           Input.scanTimeout Env.bonded]).calls →
      p.selective = 0 ∧ p.p_whitelist = none ∧ p.timeout = 0 :=
  whitelist_scan_never_entered Sdk.sample 4 _
    ⟨Env.bonded, [Input.dmEvent Env.bonded 5 .DM_EVT_CONNECTION 1,
      Input.scanTimeout Env.bonded], rfl⟩

end BleAppUartC
